import Mathlib

/-!
Shallow embedding of `site_monitor.py` (class `SiteMonitor`) and proofs about
its adaptive delay-control logic.

Latencies and delays are modelled as real numbers (`ℝ`), since numpy's `std`
involves a square root.  The per-category dictionaries (`self.responses`,
`self.baseline_avg`, ...) are modelled as total functions `String → _`
together with the list `cats` of declared keys; `self.delays` is a record.
`None`-able Python values are `Option`s.  A call of `track_request` either
returns normally (`TrackResult.ok` with the new state and the delay value
that is slept on or returned, depending on `handle_timer`) or raises
(`TrackResult.err` with the Python exception kind and the state at the
moment the exception propagates, so that partial mutation is observable).
Randomness (`random.uniform(lo, hi)`) is modelled by a caller-supplied draw
parameter `u ∈ [0, 1]` mapped affinely onto `[lo, hi]`.
-/

noncomputable section

open Classical

/-- numpy `mean` of a list (arithmetic mean). -/
def mean (xs : List ℝ) : ℝ := xs.sum / xs.length

/-- numpy `std` of a list: population standard deviation
`sqrt(mean((x - mean xs)^2))`. -/
def std (xs : List ℝ) : ℝ :=
  Real.sqrt ((xs.map (fun x => (x - mean xs) ^ 2)).sum / xs.length)

/-- Python slice `xs[-n:]` (note `xs[-0:]` is the whole list). -/
def lastSlice (n : ℕ) (xs : List ℝ) : List ℝ :=
  if n = 0 then xs else xs.drop (xs.length - n)

/-- The resolved `self.delays` dictionary
(`{'burnin':10, 'min':0, 'max':30, 'interval':5, 'current':None}`). -/
structure Delays where
  burnin : ℝ
  min : ℝ
  max : ℝ
  interval : ℝ
  current : Option ℝ

/-- The user-supplied `delays` argument: a dict whose recognized keys
override the defaults (`self.delays.update(...)`). -/
structure DelaysArg where
  burnin : Option ℝ := none
  min : Option ℝ := none
  max : Option ℝ := none
  interval : Option ℝ := none
  current : Option ℝ := none

/-- Merge the optional `delays` constructor argument into the defaults. -/
def resolveDelays : Option DelaysArg → Delays
  | none => ⟨10, 0, 30, 5, none⟩
  | some a => ⟨a.burnin.getD 10, a.min.getD 0, a.max.getD 30,
               a.interval.getD 5, a.current⟩

/-- The shapes accepted for the `categories` constructor argument
(`None`, a string, a list of names, or a dict of lists). -/
inductive CategoriesArg
  | noneA
  | strA (s : String)
  | listA (l : List String)
  | dictA (d : List (String × List ℝ))

/-- The keys of `self.responses` produced from the `categories` argument. -/
def CategoriesArg.keys : CategoriesArg → List String
  | noneA => ["main"]
  | strA s => [s]
  | listA l => l
  | dictA d => d.map Prod.fst

/-- The initial per-category histories (empty except for a pre-seeded dict). -/
def CategoriesArg.histories : CategoriesArg → String → List ℝ
  | dictA d => fun c => ((d.find? (fun p => p.1 == c)).map Prod.snd).getD []
  | _ => fun _ => []

/-- The state of a `SiteMonitor` instance: one field per `self.*` attribute
set in `__init__`. -/
structure SiteMonitor where
  default : String
  cats : List String
  responses : String → List ℝ
  delay_tracker : Option ℝ → ℕ
  delays : Delays
  baseline_avg : String → Option ℝ
  baseline_std : String → Option ℝ
  baseline_max : String → Option ℝ
  rolling_mean : String → List ℝ
  burn_in : ℕ
  choke_point : ℝ
  slow_down_thresh : ℕ
  speed_up_thresh : ℕ
  num_violations : ℕ
  num_successes : ℕ
  rand : Option ℝ
  start_delay : ℝ
  burnin_over : String → Bool
  handle_timer : Bool
  rolling_mean_length : ℕ

/-- `SiteMonitor.__init__`, with the source's default arguments. -/
def SiteMonitor.init (categories : CategoriesArg := .noneA)
    (burn_in : ℕ := 100) (choke_point : ℝ := 2)
    (slow_down_thresh : ℕ := 20) (speed_up_thresh : ℕ := 20)
    (rand : Option ℝ := none) (start_delay : ℝ := 0)
    (delays : Option DelaysArg := none) (handle_timer : Bool := true)
    (rolling_mean_length : ℕ := 25) : SiteMonitor :=
  let d := resolveDelays delays
  { default := "main"
    cats := categories.keys
    responses := categories.histories
    delay_tracker := fun _ => 0
    delays := d
    baseline_avg := fun _ => none
    baseline_std := fun _ => none
    baseline_max := fun _ => none
    rolling_mean := fun _ => []
    burn_in := burn_in
    choke_point := choke_point
    slow_down_thresh := slow_down_thresh
    speed_up_thresh := speed_up_thresh
    num_violations := 0
    num_successes := 0
    rand := rand
    start_delay := min (max start_delay d.min) d.max
    burnin_over := fun _ => false
    handle_timer := handle_timer
    rolling_mean_length := rolling_mean_length }

/-- The accepted dynamic types of `track_request`'s `response` argument,
plus a stand-in `other` for every unsupported type. -/
inductive RequestsResponse
  | response (elapsed : ℝ)
  | timedelta (seconds : ℝ)
  | float (v : ℝ)
  | int (v : ℤ)
  | other

/-- The `isinstance` chain turning `response` into seconds; `none` means no
branch matched, so the local `elapsed` stays unassigned. -/
def coerceElapsed : RequestsResponse → Option ℝ
  | .response e => some e
  | .timedelta s => some s
  | .float v => some v
  | .int v => some (v : ℝ)
  | .other => none

/-- Python exception kinds a `track_request` call can raise. -/
inductive TrackError
  | invalidCategory
  | unboundLocal
  | typeError
  deriving DecidableEq

/-- Outcome of a `track_request` call: normal return with the delay value,
or an exception together with the state at the moment it propagates. -/
inductive TrackResult
  | ok (m : SiteMonitor) (delay : Option ℝ)
  | err (e : TrackError) (m : SiteMonitor)

/-- `SiteMonitor._burnin_process`. -/
def burnin_process (m : SiteMonitor) (cat : String) (elapsed : ℝ) :
    SiteMonitor × ℝ :=
  ({m with responses :=
      Function.update m.responses cat (m.responses cat ++ [elapsed])},
   m.delays.burnin)

/-- `SiteMonitor._halt_event`: clamp the delay to the maximum (the
commented-out `SiteMonitorHalt` raise is dead code in the source). -/
def halt_event (m : SiteMonitor) : SiteMonitor :=
  {m with delays := {m.delays with current := some m.delays.max}}

/-- The first two statements of `SiteMonitor._monitoring_process`: append
`elapsed` to the category history and append the trailing-window mean to
`self.rolling_mean[category]`. -/
def monBase (m : SiteMonitor) (cat : String) (elapsed : ℝ) : SiteMonitor :=
  {m with
    responses :=
      Function.update m.responses cat (m.responses cat ++ [elapsed]),
    rolling_mean := Function.update m.rolling_mean cat
      (m.rolling_mean cat ++
        [mean (lastSlice m.rolling_mean_length (m.responses cat ++ [elapsed]))])}

/-- `SiteMonitor._monitoring_process`.  Comparisons and arithmetic on a
`None` value raise `TypeError` in Python 3. -/
def monitoring_process (m : SiteMonitor) (cat : String) (elapsed : ℝ) :
    TrackResult :=
  let hist := m.responses cat ++ [elapsed]
  let rm := mean (lastSlice m.rolling_mean_length hist)
  let m1 := monBase m cat elapsed
  match m.baseline_max cat with
  | none => .err .typeError m1
  | some bmax =>
    if bmax < rm then
      let nv := m.num_violations + 1
      if m.slow_down_thresh ≤ nv then
        match m.delays.current with
        | none => .err .typeError m1
        | some c =>
          let m2 := {m1 with delays :=
            {m1.delays with current := some (c + m.delays.interval)}}
          let m3 := if m.delays.max < c + m.delays.interval
                    then halt_event m2 else m2
          let m4 := {m3 with num_violations := 0, num_successes := 0}
          .ok m4 m4.delays.current
      else .ok {m1 with num_violations := nv} m.delays.current
    else
      match m.delays.current with
      | none => .err .typeError m1
      | some c =>
        if m.delays.min < c then
          let ns := m.num_successes + 1
          if m.speed_up_thresh ≤ ns then
            let m2 := {m1 with
              delays := {m1.delays with
                current := some (max (c - m.delays.interval) m.delays.min)},
              num_successes := 0, num_violations := 0}
            .ok m2 m2.delays.current
          else .ok {m1 with num_successes := ns} (some c)
        else .ok m1 (some c)

/-- The straight-line assignments of `SiteMonitor._end_burnin` before it
tail-calls `_monitoring_process`. -/
def endBurninUpdate (m : SiteMonitor) (cat : String) : SiteMonitor :=
  let mn := mean (m.responses cat)
  let s := std (m.responses cat)
  {m with
    baseline_avg := Function.update m.baseline_avg cat (some mn),
    baseline_std := Function.update m.baseline_std cat (some s),
    baseline_max :=
      Function.update m.baseline_max cat (some (mn + m.choke_point * s)),
    delays := {m.delays with current := some m.start_delay},
    burnin_over := Function.update m.burnin_over cat true}

/-- `SiteMonitor._end_burnin`. -/
def end_burnin (m : SiteMonitor) (cat : String) (elapsed : ℝ) : TrackResult :=
  monitoring_process (endBurninUpdate m cat) cat elapsed

/-- The burn-in / end-of-burn-in / monitoring dispatch of `track_request`
(the `elif len >= burn_in` guard of the last branch is implied by the
failure of the first). -/
def trackStep (m : SiteMonitor) (cat : String) (elapsed : ℝ) : TrackResult :=
  if (m.responses cat).length < m.burn_in then
    let p := burnin_process m cat elapsed
    .ok p.1 (some p.2)
  else if (m.responses cat).length = m.burn_in ∧ m.burnin_over cat = false
  then end_burnin m cat elapsed
  else monitoring_process m cat elapsed

/-- `random.uniform lo hi` at draw `u ∈ [0, 1]`. -/
def uniformDraw (lo hi u : ℝ) : ℝ := lo + u * (hi - lo)

/-- `SiteMonitor.track_request`.  The category check precedes every use of
`elapsed`; the delay is recorded in `delay_tracker` before jitter; `if
self.rand:` is false for `None` and for `0`; the final value is slept on
(`handle_timer`) or returned — either way we expose it in the result. -/
def track_request (m : SiteMonitor) (response : RequestsResponse)
    (category : Option String := none) (u : ℝ := 0) : TrackResult :=
  let elapsed? := coerceElapsed response
  let cat := category.getD m.default
  if cat ∈ m.cats then
    match elapsed? with
    | some elapsed =>
      match trackStep m cat elapsed with
      | .err e m1 => .err e m1
      | .ok m1 d =>
        let m2 := {m1 with delay_tracker :=
          fun x => if x = d then m1.delay_tracker x + 1
                   else m1.delay_tracker x}
        match m.rand with
        | none => .ok m2 d
        | some r =>
          if r = 0 then .ok m2 d
          else
            match d with
            | none => .err .typeError m2
            | some dv => .ok m2 (some (uniformDraw (max (dv - r) 0) (dv + r) u))
    | none => .err .unboundLocal m
  else .err .invalidCategory m

/-- The monitor state after a call, whether it returned or raised. -/
def resState : TrackResult → SiteMonitor
  | .ok m _ => m
  | .err _ m => m

/-- One reported request (response value and category) acting on the state. -/
def stepReq (m : SiteMonitor) (q : RequestsResponse × Option String) :
    SiteMonitor :=
  resState (track_request m q.1 q.2 0)

/-- Run a sequence of reports. -/
def runReqs (m : SiteMonitor) (rs : List (RequestsResponse × Option String)) :
    SiteMonitor :=
  rs.foldl stepReq m

/-- One reported float latency on the default category. -/
def stepFloat (m : SiteMonitor) (x : ℝ) : SiteMonitor :=
  resState (track_request m (.float x) none 0)

/-- Run a sequence of float latencies on the default category. -/
def runFloats (m : SiteMonitor) (xs : List ℝ) : SiteMonitor :=
  xs.foldl stepFloat m

/-- Every call in the run returns normally (no exception is raised). -/
def runOk : SiteMonitor → List ℝ → Prop
  | _, [] => True
  | m, x :: xs =>
      (∃ m' d, track_request m (.float x) none 0 = .ok m' d) ∧
      runOk (stepFloat m x) xs


/-! ### Basic facts about the statistics -/

lemma length_ne_zero_cast {xs : List ℝ} (h : xs ≠ []) :
    (0 : ℝ) < xs.length := by
  have : 0 < xs.length := List.length_pos.mpr h
  exact_mod_cast this

lemma mean_replicate {n : ℕ} (hn : n ≠ 0) (a : ℝ) :
    mean (List.replicate n a) = a := by
  simp only [mean, List.sum_replicate, nsmul_eq_mul, List.length_replicate]
  rw [mul_comm, mul_div_assoc, div_self (by exact_mod_cast hn), mul_one]

lemma std_replicate {n : ℕ} (hn : n ≠ 0) (a : ℝ) :
    std (List.replicate n a) = 0 := by
  simp only [std, mean_replicate hn, List.map_replicate, sub_self]
  norm_num

lemma mean_replicate_append {p q : ℕ} (hq : q ≠ 0) (a v : ℝ) :
    mean (List.replicate p a ++ List.replicate q v)
      = (p * a + q * v) / (p + q) := by
  simp only [mean, List.sum_append, List.sum_replicate, nsmul_eq_mul,
    List.length_append, List.length_replicate]
  push_cast
  ring_nf

lemma lt_mean_mix {p q : ℕ} (hq : q ≠ 0) {a v : ℝ} (hav : a < v) :
    a < mean (List.replicate p a ++ List.replicate q v) := by
  rw [mean_replicate_append hq]
  rw [lt_div_iff (by positivity)]
  have hq1 : (1 : ℝ) ≤ (q : ℝ) := by exact_mod_cast Nat.one_le_iff_ne_zero.mpr hq
  nlinarith

lemma mean_mix_lt {p q : ℕ} (hq : q ≠ 0) {a v : ℝ} (hav : v < a) :
    mean (List.replicate p a ++ List.replicate q v) < a := by
  rw [mean_replicate_append hq]
  rw [div_lt_iff (by positivity)]
  have hq1 : (1 : ℝ) ≤ (q : ℝ) := by exact_mod_cast Nat.one_le_iff_ne_zero.mpr hq
  nlinarith

lemma lastSlice_mix (L b n : ℕ) (hn : n ≠ 0) (a v : ℝ) :
    ∃ p q, q ≠ 0 ∧
      lastSlice L (List.replicate b a ++ List.replicate n v)
        = List.replicate p a ++ List.replicate q v := by
  unfold lastSlice
  by_cases hL : L = 0
  · exact ⟨b, n, hn, by simp [hL]⟩
  · have hlen : (List.replicate b a ++ List.replicate n v).length = b + n := by
      simp
    refine ⟨b - (b + n - L), n - (b + n - L - b), by omega, ?_⟩
    simp only [hL, if_false, hlen]
    rw [List.drop_append_eq_append_drop, List.drop_replicate,
      List.drop_replicate, List.length_replicate]

lemma lt_mean_lastSlice (L b n : ℕ) (hn : n ≠ 0) {a v : ℝ} (hav : a < v) :
    a < mean (lastSlice L (List.replicate b a ++ List.replicate n v)) := by
  obtain ⟨p, q, hq, he⟩ := lastSlice_mix L b n hn a v
  rw [he]; exact lt_mean_mix hq hav

lemma mean_lastSlice_lt (L b n : ℕ) (hn : n ≠ 0) {a v : ℝ} (hav : v < a) :
    mean (lastSlice L (List.replicate b a ++ List.replicate n v)) < a := by
  obtain ⟨p, q, hq, he⟩ := lastSlice_mix L b n hn a v
  rw [he]; exact mean_mix_lt hq hav

/-! ### Counter-cycle arithmetic -/

lemma cycle_succ_lt {t n : ℕ} (h : n % t + 1 < t) :
    (n + 1) % t = n % t + 1 ∧ (n + 1) / t = n / t := by
  have ht : 0 < t := by omega
  have key : n + 1 = t * (n / t) + (n % t + 1) := by
    have := Nat.div_add_mod n t; omega
  constructor
  · rw [key, Nat.mul_add_mod]; exact Nat.mod_eq_of_lt h
  · rw [key, Nat.mul_add_div ht, Nat.div_eq_of_lt h, add_zero]

lemma cycle_succ_eq {t n : ℕ} (ht : 0 < t) (h : n % t + 1 = t) :
    (n + 1) % t = 0 ∧ (n + 1) / t = n / t + 1 := by
  have key : n + 1 = t * (n / t + 1) := by
    have h2 := Nat.div_add_mod n t
    rw [Nat.mul_add, Nat.mul_one]
    omega
  constructor
  · rw [key]; exact Nat.mul_mod_right t _
  · rw [key]; exact Nat.mul_div_cancel_left _ ht

/-! ### Reduction lemmas: one per control-flow branch -/

lemma monitoring_eq_of_no_baseline (m : SiteMonitor) (cat : String) (e : ℝ)
    (hb : m.baseline_max cat = none) :
    monitoring_process m cat e = .err .typeError (monBase m cat e) := by
  simp [monitoring_process, hb]

lemma monitoring_eq_viol_low (m : SiteMonitor) (cat : String) (e : ℝ)
    {bmax : ℝ} (hb : m.baseline_max cat = some bmax)
    (hrm : bmax < mean (lastSlice m.rolling_mean_length (m.responses cat ++ [e])))
    (hnv : m.num_violations + 1 < m.slow_down_thresh) :
    monitoring_process m cat e =
      .ok {monBase m cat e with num_violations := m.num_violations + 1}
        m.delays.current := by
  simp [monitoring_process, hb, hrm, Nat.not_le.mpr hnv]

lemma monitoring_eq_viol_trig_none (m : SiteMonitor) (cat : String) (e : ℝ)
    {bmax : ℝ} (hb : m.baseline_max cat = some bmax)
    (hrm : bmax < mean (lastSlice m.rolling_mean_length (m.responses cat ++ [e])))
    (hnv : m.slow_down_thresh ≤ m.num_violations + 1)
    (hc : m.delays.current = none) :
    monitoring_process m cat e = .err .typeError (monBase m cat e) := by
  simp [monitoring_process, hb, hrm, hnv, hc]

lemma monitoring_eq_viol_trig (m : SiteMonitor) (cat : String) (e : ℝ)
    {bmax c w : ℝ} (hb : m.baseline_max cat = some bmax)
    (hrm : bmax < mean (lastSlice m.rolling_mean_length (m.responses cat ++ [e])))
    (hnv : m.slow_down_thresh ≤ m.num_violations + 1)
    (hc : m.delays.current = some c)
    (hw : w = if m.delays.max < c + m.delays.interval then m.delays.max
              else c + m.delays.interval) :
    monitoring_process m cat e =
      .ok {monBase m cat e with
            delays := {m.delays with current := some w},
            num_violations := 0, num_successes := 0} (some w) := by
  by_cases hh : m.delays.max < c + m.delays.interval
  · simp [monitoring_process, monBase, halt_event, hb, hrm, hnv, hc, hw, hh]
  · simp [monitoring_process, monBase, halt_event, hb, hrm, hnv, hc, hw, hh]

lemma monitoring_eq_succ_none (m : SiteMonitor) (cat : String) (e : ℝ)
    {bmax : ℝ} (hb : m.baseline_max cat = some bmax)
    (hrm : ¬ bmax < mean (lastSlice m.rolling_mean_length (m.responses cat ++ [e])))
    (hc : m.delays.current = none) :
    monitoring_process m cat e = .err .typeError (monBase m cat e) := by
  simp [monitoring_process, hb, hrm, hc]

lemma monitoring_eq_noop (m : SiteMonitor) (cat : String) (e : ℝ)
    {bmax c : ℝ} (hb : m.baseline_max cat = some bmax)
    (hrm : ¬ bmax < mean (lastSlice m.rolling_mean_length (m.responses cat ++ [e])))
    (hc : m.delays.current = some c) (hmin : ¬ m.delays.min < c) :
    monitoring_process m cat e = .ok (monBase m cat e) (some c) := by
  simp [monitoring_process, hb, hrm, hc, hmin]

lemma monitoring_eq_succ_low (m : SiteMonitor) (cat : String) (e : ℝ)
    {bmax c : ℝ} (hb : m.baseline_max cat = some bmax)
    (hrm : ¬ bmax < mean (lastSlice m.rolling_mean_length (m.responses cat ++ [e])))
    (hc : m.delays.current = some c) (hmin : m.delays.min < c)
    (hns : m.num_successes + 1 < m.speed_up_thresh) :
    monitoring_process m cat e =
      .ok {monBase m cat e with num_successes := m.num_successes + 1}
        (some c) := by
  simp [monitoring_process, hb, hrm, hc, hmin, Nat.not_le.mpr hns]

lemma monitoring_eq_succ_trig (m : SiteMonitor) (cat : String) (e : ℝ)
    {bmax c : ℝ} (hb : m.baseline_max cat = some bmax)
    (hrm : ¬ bmax < mean (lastSlice m.rolling_mean_length (m.responses cat ++ [e])))
    (hc : m.delays.current = some c) (hmin : m.delays.min < c)
    (hns : m.speed_up_thresh ≤ m.num_successes + 1) :
    monitoring_process m cat e =
      .ok {monBase m cat e with
            delays := {m.delays with
              current := some (max (c - m.delays.interval) m.delays.min)},
            num_successes := 0, num_violations := 0}
        (some (max (c - m.delays.interval) m.delays.min)) := by
  simp [monitoring_process, monBase, hb, hrm, hc, hmin, hns]

lemma trackStep_eq_burnin (m : SiteMonitor) (cat : String) (e : ℝ)
    (h : (m.responses cat).length < m.burn_in) :
    trackStep m cat e =
      .ok {m with responses :=
            Function.update m.responses cat (m.responses cat ++ [e])}
        (some m.delays.burnin) := by
  simp [trackStep, burnin_process, h]

lemma trackStep_eq_end_burnin (m : SiteMonitor) (cat : String) (e : ℝ)
    (h1 : (m.responses cat).length = m.burn_in)
    (h2 : m.burnin_over cat = false) :
    trackStep m cat e = end_burnin m cat e := by
  simp [trackStep, h1, h2]

lemma trackStep_eq_monitoring (m : SiteMonitor) (cat : String) (e : ℝ)
    (h1 : ¬ (m.responses cat).length < m.burn_in)
    (h2 : ¬ ((m.responses cat).length = m.burn_in ∧ m.burnin_over cat = false)) :
    trackStep m cat e = monitoring_process m cat e := by
  simp only [trackStep, h1, if_false, if_neg h2]

/-- The `self.delay_tracker[delay] += 1` update. -/
def trackerBump (m : SiteMonitor) (d : Option ℝ) : SiteMonitor :=
  {m with delay_tracker :=
    fun x => if x = d then m.delay_tracker x + 1 else m.delay_tracker x}

lemma track_request_eq_invalid (m : SiteMonitor) (resp : RequestsResponse)
    (category : Option String) (u : ℝ)
    (h : category.getD m.default ∉ m.cats) :
    track_request m resp category u = .err .invalidCategory m := by
  simp [track_request, h]

lemma track_request_eq_unbound (m : SiteMonitor)
    (category : Option String) (u : ℝ)
    (h : category.getD m.default ∈ m.cats) :
    track_request m .other category u = .err .unboundLocal m := by
  simp [track_request, h, coerceElapsed]

lemma track_request_eq_err (m : SiteMonitor) (resp : RequestsResponse)
    (category : Option String) (u : ℝ) {e : ℝ} {te : TrackError}
    {m1 : SiteMonitor}
    (h : category.getD m.default ∈ m.cats)
    (he : coerceElapsed resp = some e)
    (hs : trackStep m (category.getD m.default) e = .err te m1) :
    track_request m resp category u = .err te m1 := by
  simp [track_request, h, he, hs]

lemma track_request_eq_ok_norand (m : SiteMonitor) (resp : RequestsResponse)
    (category : Option String) (u : ℝ) {e : ℝ} {m1 : SiteMonitor}
    {d : Option ℝ}
    (h : category.getD m.default ∈ m.cats)
    (he : coerceElapsed resp = some e)
    (hs : trackStep m (category.getD m.default) e = .ok m1 d)
    (hr : m.rand = none) :
    track_request m resp category u = .ok (trackerBump m1 d) d := by
  simp [track_request, h, he, hs, hr, trackerBump]

lemma track_request_eq_ok_rand (m : SiteMonitor) (resp : RequestsResponse)
    (category : Option String) (u : ℝ) {e : ℝ} {m1 : SiteMonitor}
    {dv r : ℝ}
    (h : category.getD m.default ∈ m.cats)
    (he : coerceElapsed resp = some e)
    (hs : trackStep m (category.getD m.default) e = .ok m1 (some dv))
    (hr : m.rand = some r) (hr0 : r ≠ 0) :
    track_request m resp category u =
      .ok (trackerBump m1 (some dv))
        (some (uniformDraw (max (dv - r) 0) (dv + r) u)) := by
  simp [track_request, h, he, hs, hr, hr0, trackerBump]

lemma track_request_eq_ok_rand0 (m : SiteMonitor) (resp : RequestsResponse)
    (category : Option String) (u : ℝ) {e : ℝ} {m1 : SiteMonitor}
    {d : Option ℝ}
    (h : category.getD m.default ∈ m.cats)
    (he : coerceElapsed resp = some e)
    (hs : trackStep m (category.getD m.default) e = .ok m1 d)
    (hr : m.rand = some 0) :
    track_request m resp category u = .ok (trackerBump m1 d) d := by
  simp [track_request, h, he, hs, hr, trackerBump]

lemma track_request_eq_rand_typeerr (m : SiteMonitor)
    (resp : RequestsResponse) (category : Option String) (u : ℝ)
    {e r : ℝ} {m1 : SiteMonitor}
    (h : category.getD m.default ∈ m.cats)
    (he : coerceElapsed resp = some e)
    (hs : trackStep m (category.getD m.default) e = .ok m1 none)
    (hr : m.rand = some r) (hr0 : r ≠ 0) :
    track_request m resp category u = .err .typeError (trackerBump m1 none) := by
  simp [track_request, h, he, hs, hr, hr0, trackerBump]

/-! ### C5: unknown category -/

/-- C5: for every state and every reported value, calling `track_request`
with a category that was not declared at construction (after the `None`
default is substituted) raises `InvalidCategory`, and the propagated state
is exactly the input state: no field is mutated. -/
theorem c5_unknown_category (m : SiteMonitor) (resp : RequestsResponse)
    (category : Option String) (u : ℝ)
    (h : category.getD m.default ∉ m.cats) :
    track_request m resp category u = .err .invalidCategory m :=
  track_request_eq_invalid m resp category u h

/-- Witness for C5 at a concrete monitor and category. -/
theorem c5_witness :
    track_request (SiteMonitor.init (.listA ["a"])) (.float 1) (some "b") 0
      = .err .invalidCategory (SiteMonitor.init (.listA ["a"])) :=
  c5_unknown_category _ _ _ _
    (by simp [SiteMonitor.init, CategoriesArg.keys])

/-! ### C10: unsupported response type -/

/-- C10 counterexample: with an unsupported response type *and* an
undeclared category, the call raises `InvalidCategory` (a documented
interface error), not the unbound-variable error the claim asserts for
every such call, because the category check precedes every use of
`elapsed`. -/
theorem c10_counterexample :
    track_request (SiteMonitor.init (.listA ["c"])) .other (some "zz") 0
      = .err .invalidCategory (SiteMonitor.init (.listA ["c"]))
    ∧ TrackError.invalidCategory ≠ TrackError.unboundLocal :=
  ⟨track_request_eq_invalid _ _ _ _
      (by simp [SiteMonitor.init, CategoriesArg.keys]),
   by decide⟩

/-- C10 (amended): if `track_request` is called with a response argument of
an unsupported type and a category that passes the declaration check, the
local `elapsed` is never assigned and the call fails with the unhandled
`UnboundLocalError` (there is no error branch for unsupported input
types), the state unchanged; with an undeclared category,
`InvalidCategory` is raised first instead. -/
theorem c10_amended (m : SiteMonitor) (category : Option String) (u : ℝ)
    (h : category.getD m.default ∈ m.cats) :
    track_request m .other category u = .err .unboundLocal m :=
  track_request_eq_unbound m category u h

/-- Witness for C10 at a concrete monitor and declared category. -/
theorem c10_witness :
    track_request (SiteMonitor.init (.listA ["a", "b"])) .other (some "b") 0
      = .err .unboundLocal (SiteMonitor.init (.listA ["a", "b"])) :=
  c10_amended _ _ _ (by simp [SiteMonitor.init, CategoriesArg.keys])

/-! ### C8: counter discipline of a monitoring observation -/

/-- C8: every post-burn-in observation (a `_monitoring_process` call that
returns) increments at most one of `num_violations` and `num_successes`
(the three non-reset cases change at most one counter, and a success is
counted only when the current delay exceeds the minimum), and whenever an
incremented counter reaches its threshold both counters are reset to zero
together. -/
theorem c8_counters (m : SiteMonitor) (cat : String) (e : ℝ)
    (m' : SiteMonitor) (d : Option ℝ)
    (h : monitoring_process m cat e = .ok m' d) :
    (m'.num_violations = m.num_violations + 1
      ∧ m'.num_successes = m.num_successes
      ∧ m.num_violations + 1 < m.slow_down_thresh)
    ∨ (m.slow_down_thresh ≤ m.num_violations + 1
      ∧ m'.num_violations = 0 ∧ m'.num_successes = 0)
    ∨ (m'.num_successes = m.num_successes + 1
      ∧ m'.num_violations = m.num_violations
      ∧ m.num_successes + 1 < m.speed_up_thresh
      ∧ ∃ c, m.delays.current = some c ∧ m.delays.min < c)
    ∨ (m.speed_up_thresh ≤ m.num_successes + 1
      ∧ m'.num_violations = 0 ∧ m'.num_successes = 0
      ∧ ∃ c, m.delays.current = some c ∧ m.delays.min < c)
    ∨ (m'.num_violations = m.num_violations
      ∧ m'.num_successes = m.num_successes) := by
  cases hb : m.baseline_max cat with
  | none =>
    rw [monitoring_eq_of_no_baseline m cat e hb] at h
    exact absurd h (by simp)
  | some bmax =>
    by_cases hrm :
        bmax < mean (lastSlice m.rolling_mean_length (m.responses cat ++ [e]))
    · by_cases hnv : m.slow_down_thresh ≤ m.num_violations + 1
      · cases hc : m.delays.current with
        | none =>
          rw [monitoring_eq_viol_trig_none m cat e hb hrm hnv hc] at h
          exact absurd h (by simp)
        | some c =>
          rw [monitoring_eq_viol_trig m cat e hb hrm hnv hc rfl] at h
          cases h
          exact Or.inr (Or.inl ⟨hnv, rfl, rfl⟩)
      · rw [monitoring_eq_viol_low m cat e hb hrm (Nat.not_le.mp hnv)] at h
        cases h
        exact Or.inl ⟨rfl, rfl, Nat.not_le.mp hnv⟩
    · cases hc : m.delays.current with
      | none =>
        rw [monitoring_eq_succ_none m cat e hb hrm hc] at h
        exact absurd h (by simp)
      | some c =>
        by_cases hmin : m.delays.min < c
        · by_cases hns : m.speed_up_thresh ≤ m.num_successes + 1
          · rw [monitoring_eq_succ_trig m cat e hb hrm hc hmin hns] at h
            cases h
            exact Or.inr (Or.inr (Or.inr (Or.inl
              ⟨hns, rfl, rfl, c, rfl, hmin⟩)))
          · rw [monitoring_eq_succ_low m cat e hb hrm hc hmin
                (Nat.not_le.mp hns)] at h
            cases h
            exact Or.inr (Or.inr (Or.inl
              ⟨rfl, rfl, Nat.not_le.mp hns, c, rfl, hmin⟩))
        · rw [monitoring_eq_noop m cat e hb hrm hc hmin] at h
          cases h
          exact Or.inr (Or.inr (Or.inr (Or.inr ⟨rfl, rfl⟩)))

/-- A concrete post-burn-in monitor used to witness C8: one category
`"main"`, burn-in of 1 already over, baseline ceiling 5, current delay 10. -/
def M8 : SiteMonitor :=
  { default := "main"
    cats := ["main"]
    responses := fun _ => [1, 1]
    delay_tracker := fun _ => 0
    delays := ⟨10, 0, 30, 5, some 10⟩
    baseline_avg := fun _ => some 5
    baseline_std := fun _ => some 0
    baseline_max := fun _ => some 5
    rolling_mean := fun _ => []
    burn_in := 1
    choke_point := 2
    slow_down_thresh := 20
    speed_up_thresh := 20
    num_violations := 0
    num_successes := 0
    rand := none
    start_delay := 0
    burnin_over := fun _ => true
    handle_timer := false
    rolling_mean_length := 25 }

/-- Witness for C8: a concrete monitoring observation (a success with the
counter below threshold) and the conclusion of `c8_counters` for it. -/
theorem c8_witness :
    monitoring_process M8 "main" 1
      = .ok {monBase M8 "main" 1 with num_successes := 1} (some 10)
    ∧ ((({monBase M8 "main" 1 with num_successes := 1}).num_violations
          = M8.num_violations + 1
        ∧ ({monBase M8 "main" 1 with num_successes := 1}).num_successes
          = M8.num_successes
        ∧ M8.num_violations + 1 < M8.slow_down_thresh)
      ∨ (M8.slow_down_thresh ≤ M8.num_violations + 1
        ∧ ({monBase M8 "main" 1 with num_successes := 1}).num_violations = 0
        ∧ ({monBase M8 "main" 1 with num_successes := 1}).num_successes = 0)
      ∨ (({monBase M8 "main" 1 with num_successes := 1}).num_successes
          = M8.num_successes + 1
        ∧ ({monBase M8 "main" 1 with num_successes := 1}).num_violations
          = M8.num_violations
        ∧ M8.num_successes + 1 < M8.speed_up_thresh
        ∧ ∃ c, M8.delays.current = some c ∧ M8.delays.min < c)
      ∨ (M8.speed_up_thresh ≤ M8.num_successes + 1
        ∧ ({monBase M8 "main" 1 with num_successes := 1}).num_violations = 0
        ∧ ({monBase M8 "main" 1 with num_successes := 1}).num_successes = 0
        ∧ ∃ c, M8.delays.current = some c ∧ M8.delays.min < c)
      ∨ (({monBase M8 "main" 1 with num_successes := 1}).num_violations
          = M8.num_violations
        ∧ ({monBase M8 "main" 1 with num_successes := 1}).num_successes
          = M8.num_successes)) := by
  have h : monitoring_process M8 "main" 1
      = .ok {monBase M8 "main" 1 with num_successes := 1} (some 10) :=
    monitoring_eq_succ_low M8 "main" 1 rfl
      (by norm_num [M8, mean, lastSlice]) rfl (by norm_num [M8])
      (by norm_num [M8])
  exact ⟨h, c8_counters M8 "main" 1 _ _ h⟩

/-! ### C1: bounds on the current delay -/

lemma monitoring_current_bound (m : SiteMonitor) (cat : String) (e : ℝ)
    (hmm : m.delays.min ≤ m.delays.max) (hi : 0 ≤ m.delays.interval)
    (hcur : ∀ c, m.delays.current = some c →
      m.delays.min ≤ c ∧ c ≤ m.delays.max) (c' : ℝ)
    (h : (resState (monitoring_process m cat e)).delays.current = some c') :
    m.delays.min ≤ c' ∧ c' ≤ m.delays.max := by
  cases hb : m.baseline_max cat with
  | none =>
    rw [monitoring_eq_of_no_baseline m cat e hb] at h
    exact hcur c' h
  | some bmax =>
    by_cases hrm :
        bmax < mean (lastSlice m.rolling_mean_length (m.responses cat ++ [e]))
    · by_cases hnv : m.slow_down_thresh ≤ m.num_violations + 1
      · cases hc : m.delays.current with
        | none =>
          rw [monitoring_eq_viol_trig_none m cat e hb hrm hnv hc] at h
          exact hcur c' h
        | some c =>
          rw [monitoring_eq_viol_trig m cat e hb hrm hnv hc rfl] at h
          simp only [resState] at h
          have hc' : c' = if m.delays.max < c + m.delays.interval
              then m.delays.max else c + m.delays.interval := by
            have := h
            simp only [SiteMonitor.delays] at this
            exact (Option.some.inj this).symm
          obtain ⟨hcl, _⟩ := hcur c hc
          by_cases hh : m.delays.max < c + m.delays.interval
          · rw [hc', if_pos hh]; exact ⟨hmm, le_refl _⟩
          · rw [hc', if_neg hh]
            constructor
            · linarith
            · linarith [not_lt.mp hh]
      · rw [monitoring_eq_viol_low m cat e hb hrm (Nat.not_le.mp hnv)] at h
        exact hcur c' h
    · cases hc : m.delays.current with
      | none =>
        rw [monitoring_eq_succ_none m cat e hb hrm hc] at h
        exact hcur c' h
      | some c =>
        by_cases hmin : m.delays.min < c
        · by_cases hns : m.speed_up_thresh ≤ m.num_successes + 1
          · rw [monitoring_eq_succ_trig m cat e hb hrm hc hmin hns] at h
            simp only [resState] at h
            have hc' : c' = max (c - m.delays.interval) m.delays.min :=
              (Option.some.inj h).symm
            obtain ⟨_, hcu⟩ := hcur c hc
            subst hc'
            refine ⟨le_max_right _ _, ?_⟩
            rw [max_le_iff]
            constructor <;> linarith
          · rw [monitoring_eq_succ_low m cat e hb hrm hc hmin
                (Nat.not_le.mp hns)] at h
            simp only [resState] at h
            have h2 : m.delays.current = some c' := by
              simpa [monBase] using h
            rw [hc] at h2
            obtain rfl := Option.some.inj h2
            exact hcur c hc
        · rw [monitoring_eq_noop m cat e hb hrm hc hmin] at h
          simp only [resState] at h
          have h2 : m.delays.current = some c' := by
            simpa [monBase] using h
          rw [hc] at h2
          obtain rfl := Option.some.inj h2
          exact hcur c hc

lemma trackStep_current_bound (m : SiteMonitor) (cat : String) (e : ℝ)
    (hmm : m.delays.min ≤ m.delays.max) (hi : 0 ≤ m.delays.interval)
    (hs1 : m.delays.min ≤ m.start_delay) (hs2 : m.start_delay ≤ m.delays.max)
    (hcur : ∀ c, m.delays.current = some c →
      m.delays.min ≤ c ∧ c ≤ m.delays.max) (c' : ℝ)
    (h : (resState (trackStep m cat e)).delays.current = some c') :
    m.delays.min ≤ c' ∧ c' ≤ m.delays.max := by
  by_cases h1 : (m.responses cat).length < m.burn_in
  · rw [trackStep_eq_burnin m cat e h1] at h
    simp only [resState] at h
    exact hcur c' h
  · by_cases h2 : (m.responses cat).length = m.burn_in
        ∧ m.burnin_over cat = false
    · rw [trackStep_eq_end_burnin m cat e h2.1 h2.2] at h
      unfold end_burnin at h
      refine monitoring_current_bound (endBurninUpdate m cat) cat e hmm hi
        ?_ c' h
      intro c hc
      have h3 : (some m.start_delay : Option ℝ) = some c := hc
      obtain rfl := Option.some.inj h3
      exact ⟨hs1, hs2⟩
    · rw [trackStep_eq_monitoring m cat e h1 h2] at h
      exact monitoring_current_bound m cat e hmm hi hcur c' h

/-- C1 (amended): `delays['current']` starts as `None` (see the
counterexample), not as a number; but whenever it holds a value inside
`[min_delay, max_delay]` — as end-of-burn-in establishes via the clamped
`start_delay` — any single `track_request` call (returning or raising)
leaves it inside `[min_delay, max_delay]`, provided
`min_delay ≤ max_delay` and the step interval is nonnegative. -/
theorem c1_amended (m : SiteMonitor) (resp : RequestsResponse)
    (category : Option String) (u : ℝ)
    (hmm : m.delays.min ≤ m.delays.max) (hi : 0 ≤ m.delays.interval)
    (hs1 : m.delays.min ≤ m.start_delay) (hs2 : m.start_delay ≤ m.delays.max)
    (hcur : ∀ c, m.delays.current = some c →
      m.delays.min ≤ c ∧ c ≤ m.delays.max) (c' : ℝ)
    (h : (resState (track_request m resp category u)).delays.current
        = some c') :
    m.delays.min ≤ c' ∧ c' ≤ m.delays.max := by
  by_cases hcat : category.getD m.default ∈ m.cats
  · cases he : coerceElapsed resp with
    | none =>
      cases resp <;> simp [coerceElapsed] at he
      rw [track_request_eq_unbound m category u hcat] at h
      exact hcur c' h
    | some e =>
      cases hs : trackStep m (category.getD m.default) e with
      | err te m1 =>
        rw [track_request_eq_err m resp category u hcat he hs] at h
        exact trackStep_current_bound m (category.getD m.default) e hmm hi
          hs1 hs2 hcur c' (by rw [hs]; exact h)
      | ok m1 d =>
        have key : ∀ h' : m1.delays.current = some c',
            m.delays.min ≤ c' ∧ c' ≤ m.delays.max := by
          intro h'
          exact trackStep_current_bound m (category.getD m.default) e hmm hi
            hs1 hs2 hcur c' (by rw [hs]; exact h')
        cases hr : m.rand with
        | none =>
          rw [track_request_eq_ok_norand m resp category u hcat he hs hr] at h
          exact key h
        | some r =>
          by_cases hr0 : r = 0
          · subst hr0
            rw [track_request_eq_ok_rand0 m resp category u hcat he hs hr] at h
            exact key h
          · cases d with
            | none =>
              rw [track_request_eq_rand_typeerr m resp category u hcat he hs
                hr hr0] at h
              exact key h
            | some dv =>
              rw [track_request_eq_ok_rand m resp category u hcat he hs
                hr hr0] at h
              exact key h
  · rw [track_request_eq_invalid m resp category u hcat] at h
    exact hcur c' h

/-- C1 counterexample: on a freshly constructed monitor (default
configuration) `delays['current']` is `None`, not a float in
`[min_delay, max_delay]`. -/
theorem c1_counterexample : (SiteMonitor.init).delays.current = none := rfl

/-- A concrete post-burn-in monitor used to witness C1: current delay 10
inside `[0, 30]`. -/
def MC1 : SiteMonitor :=
  { default := "main"
    cats := ["main"]
    responses := fun _ => [2, 2]
    delay_tracker := fun _ => 0
    delays := ⟨10, 0, 30, 5, some 10⟩
    baseline_avg := fun _ => some 4
    baseline_std := fun _ => some 0
    baseline_max := fun _ => some 4
    rolling_mean := fun _ => []
    burn_in := 1
    choke_point := 2
    slow_down_thresh := 20
    speed_up_thresh := 20
    num_violations := 0
    num_successes := 0
    rand := none
    start_delay := 0
    burnin_over := fun _ => true
    handle_timer := false
    rolling_mean_length := 25 }

/-- Witness for C1: after one concrete `track_request` call on `MC1` the
current delay is 10, and `c1_amended` places it in `[min, max]`. -/
theorem c1_witness :
    (resState (track_request MC1 (.float 2) none 0)).delays.current
      = some 10
    ∧ MC1.delays.min ≤ (10 : ℝ) ∧ (10 : ℝ) ≤ MC1.delays.max := by
  have hs : trackStep MC1 "main" 2
      = .ok {monBase MC1 "main" 2 with num_successes := 1} (some 10) := by
    rw [trackStep_eq_monitoring MC1 "main" 2 (by norm_num [MC1])
      (by simp [MC1])]
    exact monitoring_eq_succ_low MC1 "main" 2 rfl
      (by norm_num [MC1, mean, lastSlice]) rfl (by norm_num [MC1])
      (by norm_num [MC1])
  have h : (resState (track_request MC1 (.float 2) none 0)).delays.current
      = some 10 := by
    rw [track_request_eq_ok_norand MC1 (.float 2) none 0
      (by simp [MC1]) rfl hs rfl]
    rfl
  refine ⟨h, ?_⟩
  exact c1_amended MC1 (.float 2) none 0 (by norm_num [MC1])
    (by norm_num [MC1]) (by norm_num [MC1]) (by norm_num [MC1])
    (by intro c hc
        have h3 : (some (10 : ℝ)) = some c := hc
        obtain rfl := Option.some.inj h3
        norm_num [MC1]) 10 h

/-! ### C9: jitter bounds and non-interference -/

/-- C9: when the jitter amplitude is 2 and the delay issued by the
dispatch is 10 with the controller's current delay stored as 10, then for
every possible random draw `u ∈ [0, 1]` the value handed to the caller
lies in `[8, 12]`, while the stored current delay remains exactly 10 and
the delay histogram records the un-jittered value 10. -/
theorem c9_jitter (m : SiteMonitor) (resp : RequestsResponse)
    (category : Option String) (u e : ℝ) (m1 : SiteMonitor)
    (hu0 : 0 ≤ u) (hu1 : u ≤ 1) (hr : m.rand = some 2)
    (hcat : category.getD m.default ∈ m.cats)
    (he : coerceElapsed resp = some e)
    (hs : trackStep m (category.getD m.default) e = .ok m1 (some 10))
    (hcur : m1.delays.current = some 10) :
    ∃ m2 ret, track_request m resp category u = .ok m2 (some ret)
      ∧ 8 ≤ ret ∧ ret ≤ 12
      ∧ m2.delays.current = some 10
      ∧ m2.delay_tracker (some 10) = m1.delay_tracker (some 10) + 1 := by
  refine ⟨trackerBump m1 (some 10),
    uniformDraw (max ((10 : ℝ) - 2) 0) (10 + 2) u, ?_, ?_, ?_, ?_, ?_⟩
  · exact track_request_eq_ok_rand m resp category u hcat he hs hr
      (by norm_num)
  · rw [uniformDraw, show max ((10 : ℝ) - 2) 0 = 8 by norm_num]
    nlinarith
  · rw [uniformDraw, show max ((10 : ℝ) - 2) 0 = 8 by norm_num]
    nlinarith
  · exact hcur
  · simp [trackerBump]

/-- A concrete monitor used to witness C9: jitter amplitude 2, current
delay 10, and a success observation below threshold so the delay stays 10. -/
def MC9 : SiteMonitor :=
  { default := "main"
    cats := ["main"]
    responses := fun _ => [3, 3]
    delay_tracker := fun _ => 0
    delays := ⟨10, 0, 30, 5, some 10⟩
    baseline_avg := fun _ => some 6
    baseline_std := fun _ => some 0
    baseline_max := fun _ => some 6
    rolling_mean := fun _ => []
    burn_in := 1
    choke_point := 2
    slow_down_thresh := 20
    speed_up_thresh := 20
    num_violations := 0
    num_successes := 0
    rand := some 2
    start_delay := 0
    burnin_over := fun _ => true
    handle_timer := false
    rolling_mean_length := 25 }

/-- Witness for C9 at the concrete monitor `MC9` and draw `u = 1/2`. -/
theorem c9_witness :
    ∃ m2 ret, track_request MC9 (.float 3) none (1 / 2) = .ok m2 (some ret)
      ∧ 8 ≤ ret ∧ ret ≤ 12
      ∧ m2.delays.current = some 10
      ∧ m2.delay_tracker (some 10)
        = ({monBase MC9 "main" 3 with
            num_successes := 1}).delay_tracker (some 10) + 1 := by
  have hs : trackStep MC9 "main" 3
      = .ok {monBase MC9 "main" 3 with num_successes := 1} (some 10) := by
    rw [trackStep_eq_monitoring MC9 "main" 3 (by norm_num [MC9])
      (by simp [MC9])]
    exact monitoring_eq_succ_low MC9 "main" 3 rfl
      (by norm_num [MC9, mean, lastSlice]) rfl (by norm_num [MC9])
      (by norm_num [MC9])
  exact c9_jitter MC9 (.float 3) none (1 / 2) 3
    {monBase MC9 "main" 3 with num_successes := 1}
    (by norm_num) (by norm_num) rfl (by simp [MC9]) rfl hs rfl

/-! ### State-shape lemmas for whole-call reasoning -/

lemma monitoring_resState (m : SiteMonitor) (cat : String) (e : ℝ) :
    ∃ cur nv ns, resState (monitoring_process m cat e) =
      {monBase m cat e with
        delays := {m.delays with current := cur},
        num_violations := nv, num_successes := ns} := by
  cases hb : m.baseline_max cat with
  | none =>
    exact ⟨m.delays.current, m.num_violations, m.num_successes,
      by rw [monitoring_eq_of_no_baseline m cat e hb]; rfl⟩
  | some bmax =>
    by_cases hrm :
        bmax < mean (lastSlice m.rolling_mean_length (m.responses cat ++ [e]))
    · by_cases hnv : m.slow_down_thresh ≤ m.num_violations + 1
      · cases hc : m.delays.current with
        | none =>
          exact ⟨m.delays.current, m.num_violations, m.num_successes,
            by rw [monitoring_eq_viol_trig_none m cat e hb hrm hnv hc]; rfl⟩
        | some c =>
          refine ⟨some (if m.delays.max < c + m.delays.interval
            then m.delays.max else c + m.delays.interval), 0, 0, ?_⟩
          rw [monitoring_eq_viol_trig m cat e hb hrm hnv hc rfl]
          rfl
      · exact ⟨m.delays.current, m.num_violations + 1, m.num_successes,
          by rw [monitoring_eq_viol_low m cat e hb hrm (Nat.not_le.mp hnv)]
             rfl⟩
    · cases hc : m.delays.current with
      | none =>
        exact ⟨m.delays.current, m.num_violations, m.num_successes,
          by rw [monitoring_eq_succ_none m cat e hb hrm hc]; rfl⟩
      | some c =>
        by_cases hmin : m.delays.min < c
        · by_cases hns : m.speed_up_thresh ≤ m.num_successes + 1
          · exact ⟨some (max (c - m.delays.interval) m.delays.min), 0, 0,
              by rw [monitoring_eq_succ_trig m cat e hb hrm hc hmin hns]
                 rfl⟩
          · exact ⟨m.delays.current, m.num_violations, m.num_successes + 1,
              by rw [monitoring_eq_succ_low m cat e hb hrm hc hmin
                  (Nat.not_le.mp hns)]
                 rfl⟩
        · exact ⟨m.delays.current, m.num_violations, m.num_successes,
            by rw [monitoring_eq_noop m cat e hb hrm hc hmin]; rfl⟩

lemma trackStep_state (m : SiteMonitor) (cat : String) (e : ℝ) :
    ((m.responses cat).length < m.burn_in ∧
      trackStep m cat e = TrackResult.ok
        ({m with responses :=
          Function.update m.responses cat (m.responses cat ++ [e])})
        (some m.delays.burnin))
    ∨ ((m.responses cat).length = m.burn_in ∧ m.burnin_over cat = false ∧
      trackStep m cat e = monitoring_process (endBurninUpdate m cat) cat e)
    ∨ (m.burn_in ≤ (m.responses cat).length ∧
      ¬((m.responses cat).length = m.burn_in
        ∧ m.burnin_over cat = false) ∧
      trackStep m cat e = monitoring_process m cat e) := by
  by_cases h1 : (m.responses cat).length < m.burn_in
  · exact Or.inl ⟨h1, trackStep_eq_burnin m cat e h1⟩
  · by_cases h2 : (m.responses cat).length = m.burn_in
        ∧ m.burnin_over cat = false
    · exact Or.inr (Or.inl ⟨h2.1, h2.2, trackStep_eq_end_burnin m cat e
        h2.1 h2.2⟩)
    · exact Or.inr (Or.inr ⟨Nat.not_lt.mp h1, h2,
        trackStep_eq_monitoring m cat e h1 h2⟩)

lemma stepReq_state (m : SiteMonitor) (q : RequestsResponse × Option String) :
    stepReq m q = m
    ∨ (∃ e m1 d, q.2.getD m.default ∈ m.cats
        ∧ coerceElapsed q.1 = some e
        ∧ trackStep m (q.2.getD m.default) e = .ok m1 d
        ∧ stepReq m q = trackerBump m1 d)
    ∨ (∃ e te m1, q.2.getD m.default ∈ m.cats
        ∧ coerceElapsed q.1 = some e
        ∧ trackStep m (q.2.getD m.default) e = .err te m1
        ∧ stepReq m q = m1) := by
  by_cases hcat : q.2.getD m.default ∈ m.cats
  · cases he : coerceElapsed q.1 with
    | none =>
      left
      have : q.1 = .other := by cases hq : q.1 <;> simp [hq, coerceElapsed] at he ⊢
      rw [stepReq, this, track_request_eq_unbound m q.2 0 hcat]
      rfl
    | some e =>
      cases hs : trackStep m (q.2.getD m.default) e with
      | err te m1 =>
        refine Or.inr (Or.inr ⟨e, te, m1, hcat, rfl, hs, ?_⟩)
        rw [stepReq, track_request_eq_err m q.1 q.2 0 hcat he hs]
        rfl
      | ok m1 d =>
        refine Or.inr (Or.inl ⟨e, m1, d, hcat, rfl, hs, ?_⟩)
        cases hr : m.rand with
        | none =>
          rw [stepReq, track_request_eq_ok_norand m q.1 q.2 0 hcat he hs hr]
          rfl
        | some r =>
          by_cases hr0 : r = 0
          · subst hr0
            rw [stepReq, track_request_eq_ok_rand0 m q.1 q.2 0 hcat he hs hr]
            rfl
          · cases d with
            | none =>
              rw [stepReq,
                track_request_eq_rand_typeerr m q.1 q.2 0 hcat he hs hr hr0]
              rfl
            | some dv =>
              rw [stepReq,
                track_request_eq_ok_rand m q.1 q.2 0 hcat he hs hr hr0]
              rfl
  · left
    rw [stepReq, track_request_eq_invalid m q.1 q.2 0 hcat]
    rfl

lemma monitoring_resState_fields (m : SiteMonitor) (cat : String) (e : ℝ) :
    (resState (monitoring_process m cat e)).responses
      = Function.update m.responses cat (m.responses cat ++ [e])
    ∧ (resState (monitoring_process m cat e)).baseline_avg = m.baseline_avg
    ∧ (resState (monitoring_process m cat e)).baseline_std = m.baseline_std
    ∧ (resState (monitoring_process m cat e)).baseline_max = m.baseline_max
    ∧ (resState (monitoring_process m cat e)).burnin_over = m.burnin_over
    ∧ (resState (monitoring_process m cat e)).burn_in = m.burn_in
    ∧ (resState (monitoring_process m cat e)).choke_point = m.choke_point := by
  obtain ⟨cur, nv, ns, h⟩ := monitoring_resState m cat e
  rw [h]
  exact ⟨rfl, rfl, rfl, rfl, rfl, rfl, rfl⟩

/-! ### C2: the baseline life cycle -/

/-- The baseline invariant for a category `c`: all three baseline fields
are `None` (and at most `b` samples are recorded) while burn-in is not
over, and once it is over they are, and remain, exactly the mean, the
population standard deviation, and `mean + choke * std` of the first `b`
recorded samples. -/
def BaselineInv (b : ℕ) (choke : ℝ) (c : String) (m : SiteMonitor) : Prop :=
  (m.burnin_over c = false →
    m.baseline_avg c = none ∧ m.baseline_std c = none ∧
    m.baseline_max c = none ∧ (m.responses c).length ≤ b)
  ∧ (m.burnin_over c = true →
    b < (m.responses c).length ∧
    m.baseline_avg c = some (mean ((m.responses c).take b)) ∧
    m.baseline_std c = some (std ((m.responses c).take b)) ∧
    m.baseline_max c = some (mean ((m.responses c).take b)
      + choke * std ((m.responses c).take b)))

lemma trackStep_baseline (b : ℕ) (choke : ℝ) (c : String)
    (m : SiteMonitor) (cat : String) (e : ℝ)
    (hb : m.burn_in = b) (hch : m.choke_point = choke)
    (hinv : BaselineInv b choke c m) :
    BaselineInv b choke c (resState (trackStep m cat e)) := by
  rcases trackStep_state m cat e with ⟨h1, hstep⟩ | ⟨h1, h2, hstep⟩
    | ⟨h1, h2, hstep⟩
  · -- burn-in recording branch: only `responses cat` grows
    rw [hstep]
    simp only [resState]
    constructor
    · intro hov
      obtain ⟨ha, hsd, hmx, hlen⟩ := hinv.1 hov
      refine ⟨ha, hsd, hmx, ?_⟩
      show (Function.update m.responses cat (m.responses cat ++ [e])
        c).length ≤ b
      by_cases hcc : c = cat
      · subst hcc
        rw [Function.update_same, List.length_append]
        simp only [List.length_singleton]
        omega
      · rw [Function.update_noteq hcc]
        exact hlen
    · intro hov
      obtain ⟨hlen, ha, hsd, hmx⟩ := hinv.2 hov
      by_cases hcc : c = cat
      · subst hcc
        exact absurd h1 (by omega)
      · have hr : Function.update m.responses cat
            (m.responses cat ++ [e]) c = m.responses c :=
          Function.update_noteq hcc _ _
        refine ⟨?_, ?_, ?_, ?_⟩
        · show b < (Function.update m.responses cat
            (m.responses cat ++ [e]) c).length
          rw [hr]; exact hlen
        · show m.baseline_avg c = some (mean ((Function.update m.responses
            cat (m.responses cat ++ [e]) c).take b))
          rw [hr]; exact ha
        · show m.baseline_std c = some (std ((Function.update m.responses
            cat (m.responses cat ++ [e]) c).take b))
          rw [hr]; exact hsd
        · show m.baseline_max c = some (mean ((Function.update m.responses
            cat (m.responses cat ++ [e]) c).take b)
            + choke * std ((Function.update m.responses
            cat (m.responses cat ++ [e]) c).take b))
          rw [hr]; exact hmx
  · -- end-of-burn-in branch
    rw [hstep]
    obtain ⟨hre, ha, hsd, hmx, hov, _, _⟩ :=
      monitoring_resState_fields (endBurninUpdate m cat) cat e
    constructor
    · intro hov2
      rw [hov] at hov2
      by_cases hcc : c = cat
      · subst hcc
        rw [show (endBurninUpdate m c).burnin_over c = true from
          Function.update_same ..] at hov2
        exact absurd hov2 (by simp)
      · have hov3 : m.burnin_over c = false := by
          rwa [show (endBurninUpdate m cat).burnin_over c
            = m.burnin_over c from Function.update_noteq hcc ..] at hov2
        obtain ⟨ha2, hsd2, hmx2, hlen2⟩ := hinv.1 hov3
        rw [ha, hsd, hmx, hre]
        rw [show (endBurninUpdate m cat).baseline_avg c
          = m.baseline_avg c from Function.update_noteq hcc ..]
        rw [show (endBurninUpdate m cat).baseline_std c
          = m.baseline_std c from Function.update_noteq hcc ..]
        rw [show (endBurninUpdate m cat).baseline_max c
          = m.baseline_max c from Function.update_noteq hcc ..]
        refine ⟨ha2, hsd2, hmx2, ?_⟩
        rw [show Function.update (endBurninUpdate m cat).responses cat
          ((endBurninUpdate m cat).responses cat ++ [e]) c
          = m.responses c from Function.update_noteq hcc ..]
        exact hlen2
    · intro hov2
      rw [hov] at hov2
      rw [ha, hsd, hmx, hre]
      by_cases hcc : c = cat
      · subst hcc
        have hlen : (m.responses c).length = b := by omega
        have htake : (Function.update (endBurninUpdate m c).responses c
            ((endBurninUpdate m c).responses c ++ [e]) c).take b
            = m.responses c := by
          rw [Function.update_same]
          exact List.take_left' (by exact hlen)
        rw [show (endBurninUpdate m c).baseline_avg c
          = some (mean (m.responses c)) from Function.update_same ..]
        rw [show (endBurninUpdate m c).baseline_std c
          = some (std (m.responses c)) from Function.update_same ..]
        rw [show (endBurninUpdate m c).baseline_max c
          = some (mean (m.responses c)
            + m.choke_point * std (m.responses c)) from
          Function.update_same ..]
        rw [htake]
        refine ⟨?_, rfl, rfl, by rw [hch]⟩
        rw [Function.update_same]
        show b < ((m.responses c) ++ [e]).length
        rw [List.length_append]
        simp only [List.length_singleton]
        omega
      · have hov3 : m.burnin_over c = true := by
          rwa [show (endBurninUpdate m cat).burnin_over c
            = m.burnin_over c from Function.update_noteq hcc ..] at hov2
        obtain ⟨hlen2, ha2, hsd2, hmx2⟩ := hinv.2 hov3
        rw [show (endBurninUpdate m cat).baseline_avg c
          = m.baseline_avg c from Function.update_noteq hcc ..]
        rw [show (endBurninUpdate m cat).baseline_std c
          = m.baseline_std c from Function.update_noteq hcc ..]
        rw [show (endBurninUpdate m cat).baseline_max c
          = m.baseline_max c from Function.update_noteq hcc ..]
        rw [show Function.update (endBurninUpdate m cat).responses cat
          ((endBurninUpdate m cat).responses cat ++ [e]) c
          = m.responses c from Function.update_noteq hcc ..]
        exact ⟨hlen2, ha2, hsd2, hmx2⟩
  · -- monitoring branch
    rw [hstep]
    obtain ⟨hre, ha, hsd, hmx, hov, _, _⟩ :=
      monitoring_resState_fields m cat e
    constructor
    · intro hov2
      rw [hov] at hov2
      obtain ⟨ha2, hsd2, hmx2, hlen2⟩ := hinv.1 hov2
      rw [ha, hsd, hmx, hre]
      refine ⟨ha2, hsd2, hmx2, ?_⟩
      by_cases hcc : c = cat
      · subst hcc
        exfalso
        have : (m.responses c).length = b := by omega
        exact h2 ⟨by omega, hov2⟩
      · rw [Function.update_noteq hcc]
        exact hlen2
    · intro hov2
      rw [hov] at hov2
      obtain ⟨hlen2, ha2, hsd2, hmx2⟩ := hinv.2 hov2
      rw [ha, hsd, hmx, hre]
      by_cases hcc : c = cat
      · subst hcc
        rw [Function.update_same]
        rw [List.take_append_of_le_length (by omega)]
        refine ⟨?_, ha2, hsd2, hmx2⟩
        rw [List.length_append]
        simp only [List.length_singleton]
        omega
      · rw [Function.update_noteq hcc]
        exact ⟨hlen2, ha2, hsd2, hmx2⟩

lemma trackStep_cfg (m : SiteMonitor) (cat : String) (e : ℝ) :
    (resState (trackStep m cat e)).burn_in = m.burn_in
    ∧ (resState (trackStep m cat e)).choke_point = m.choke_point := by
  rcases trackStep_state m cat e with ⟨h1, hstep⟩ | ⟨h1, h2, hstep⟩
    | ⟨h1, h2, hstep⟩ <;> rw [hstep]
  · exact ⟨rfl, rfl⟩
  · obtain ⟨_, _, _, _, _, hbi, hck⟩ :=
      monitoring_resState_fields (endBurninUpdate m cat) cat e
    exact ⟨hbi, hck⟩
  · obtain ⟨_, _, _, _, _, hbi, hck⟩ := monitoring_resState_fields m cat e
    exact ⟨hbi, hck⟩

lemma stepReq_cfg (m : SiteMonitor) (q : RequestsResponse × Option String) :
    (stepReq m q).burn_in = m.burn_in
    ∧ (stepReq m q).choke_point = m.choke_point := by
  rcases stepReq_state m q with hm | ⟨e, m1, d, hcat, he, hs, hst⟩
    | ⟨e, te, m1, hcat, he, hs, hst⟩
  · rw [hm]; exact ⟨rfl, rfl⟩
  · rw [hst]
    have h := trackStep_cfg m (q.2.getD m.default) e
    rw [hs] at h
    exact h
  · rw [hst]
    have h := trackStep_cfg m (q.2.getD m.default) e
    rw [hs] at h
    exact h

lemma stepReq_baseline (b : ℕ) (choke : ℝ) (c : String) (m : SiteMonitor)
    (q : RequestsResponse × Option String)
    (hb : m.burn_in = b) (hch : m.choke_point = choke)
    (hinv : BaselineInv b choke c m) :
    BaselineInv b choke c (stepReq m q) := by
  rcases stepReq_state m q with hm | ⟨e, m1, d, hcat, he, hs, hst⟩
    | ⟨e, te, m1, hcat, he, hs, hst⟩
  · rw [hm]; exact hinv
  · rw [hst]
    have h := trackStep_baseline b choke c m (q.2.getD m.default) e hb hch hinv
    rw [hs] at h
    unfold BaselineInv at h ⊢
    exact h
  · rw [hst]
    have h := trackStep_baseline b choke c m (q.2.getD m.default) e hb hch hinv
    rw [hs] at h
    exact h

lemma runReqs_baseline (b : ℕ) (choke : ℝ) (c : String) (m : SiteMonitor)
    (rs : List (RequestsResponse × Option String))
    (hb : m.burn_in = b) (hch : m.choke_point = choke)
    (hinv : BaselineInv b choke c m) :
    BaselineInv b choke c (runReqs m rs)
    ∧ (runReqs m rs).burn_in = b ∧ (runReqs m rs).choke_point = choke := by
  induction rs generalizing m with
  | nil => exact ⟨hinv, hb, hch⟩
  | cons q rs ih =>
    have hcfg := stepReq_cfg m q
    exact ih (stepReq m q) (by rw [hcfg.1, hb]) (by rw [hcfg.2, hch])
      (stepReq_baseline b choke c m q hb hch hinv)

lemma trackStep_keeps_over (c : String) (m : SiteMonitor) (cat : String)
    (e : ℝ) (hover : m.burnin_over c = true) :
    (resState (trackStep m cat e)).burnin_over c = true
    ∧ (resState (trackStep m cat e)).baseline_avg c = m.baseline_avg c
    ∧ (resState (trackStep m cat e)).baseline_std c = m.baseline_std c
    ∧ (resState (trackStep m cat e)).baseline_max c = m.baseline_max c := by
  rcases trackStep_state m cat e with ⟨h1, hstep⟩ | ⟨h1, h2, hstep⟩
    | ⟨h1, h2, hstep⟩ <;> rw [hstep]
  · exact ⟨hover, rfl, rfl, rfl⟩
  · obtain ⟨_, ha, hsd, hmx, hov, _, _⟩ :=
      monitoring_resState_fields (endBurninUpdate m cat) cat e
    by_cases hcc : c = cat
    · subst hcc
      rw [h2] at hover
      exact absurd hover (by simp)
    · rw [ha, hsd, hmx, hov]
      refine ⟨?_, ?_, ?_, ?_⟩
      · rw [show (endBurninUpdate m cat).burnin_over c = m.burnin_over c
          from Function.update_noteq hcc ..]
        exact hover
      · exact Function.update_noteq hcc ..
      · exact Function.update_noteq hcc ..
      · exact Function.update_noteq hcc ..
  · obtain ⟨_, ha, hsd, hmx, hov, _, _⟩ := monitoring_resState_fields m cat e
    rw [ha, hsd, hmx, hov]
    exact ⟨hover, rfl, rfl, rfl⟩

lemma stepReq_keeps_over (c : String) (m : SiteMonitor)
    (q : RequestsResponse × Option String)
    (hover : m.burnin_over c = true) :
    (stepReq m q).burnin_over c = true
    ∧ (stepReq m q).baseline_avg c = m.baseline_avg c
    ∧ (stepReq m q).baseline_std c = m.baseline_std c
    ∧ (stepReq m q).baseline_max c = m.baseline_max c := by
  rcases stepReq_state m q with hm | ⟨e, m1, d, hcat, he, hs, hst⟩
    | ⟨e, te, m1, hcat, he, hs, hst⟩
  · rw [hm]; exact ⟨hover, rfl, rfl, rfl⟩
  · rw [hst]
    have h := trackStep_keeps_over c m (q.2.getD m.default) e hover
    rw [hs] at h
    exact h
  · rw [hst]
    have h := trackStep_keeps_over c m (q.2.getD m.default) e hover
    rw [hs] at h
    exact h

lemma runReqs_keeps_over (c : String) (m : SiteMonitor)
    (rs : List (RequestsResponse × Option String))
    (hover : m.burnin_over c = true) :
    (runReqs m rs).burnin_over c = true
    ∧ (runReqs m rs).baseline_avg c = m.baseline_avg c
    ∧ (runReqs m rs).baseline_std c = m.baseline_std c
    ∧ (runReqs m rs).baseline_max c = m.baseline_max c := by
  induction rs generalizing m with
  | nil => exact ⟨hover, rfl, rfl, rfl⟩
  | cons q rs ih =>
    obtain ⟨h1, h2, h3, h4⟩ := stepReq_keeps_over c m q hover
    obtain ⟨g1, g2, g3, g4⟩ := ih (stepReq m q) h1
    exact ⟨g1, g2.trans h2, g3.trans h3, g4.trans h4⟩

lemma runReqs_append (m : SiteMonitor)
    (rs rs' : List (RequestsResponse × Option String)) :
    runReqs m (rs ++ rs') = runReqs (runReqs m rs) rs' :=
  List.foldl_append ..

/-- C2: starting from a monitor constructed with a list of category names
(empty histories) and any configuration with `burn_in ≥ 1`, after any
sequence of reports the baseline fields of every category `c` are all
`None` until burn-in completes for `c` (which happens exactly when more
than `burn_in` samples exist, i.e. on the report after `burn_in` samples
were recorded), at which point they are all set together to the mean, the
population standard deviation, and `mean + choke_point·std` of the first
`burn_in` recorded samples of `c`; and they are never mutated afterward
(any further report sequence `rs'` leaves all three unchanged). -/
theorem c2_baseline_lifecycle (cats : List String) (b : ℕ) (choke : ℝ)
    (tv ts : ℕ) (r : Option ℝ) (sd : ℝ) (dA : Option DelaysArg) (ht : Bool)
    (L : ℕ) (c : String)
    (rs rs' : List (RequestsResponse × Option String)) (hb : 1 ≤ b) :
    BaselineInv b choke c
      (runReqs (SiteMonitor.init (.listA cats) b choke tv ts r sd dA ht L) rs)
    ∧ ((runReqs (SiteMonitor.init (.listA cats) b choke tv ts r sd dA ht L)
          rs).burnin_over c = true →
        (runReqs (SiteMonitor.init (.listA cats) b choke tv ts r sd dA ht L)
            (rs ++ rs')).baseline_avg c
          = (runReqs (SiteMonitor.init (.listA cats) b choke tv ts r sd dA
              ht L) rs).baseline_avg c
        ∧ (runReqs (SiteMonitor.init (.listA cats) b choke tv ts r sd dA
              ht L) (rs ++ rs')).baseline_std c
          = (runReqs (SiteMonitor.init (.listA cats) b choke tv ts r sd dA
              ht L) rs).baseline_std c
        ∧ (runReqs (SiteMonitor.init (.listA cats) b choke tv ts r sd dA
              ht L) (rs ++ rs')).baseline_max c
          = (runReqs (SiteMonitor.init (.listA cats) b choke tv ts r sd dA
              ht L) rs).baseline_max c) := by
  have hinv0 : BaselineInv b choke c
      (SiteMonitor.init (.listA cats) b choke tv ts r sd dA ht L) := by
    constructor
    · intro _
      refine ⟨rfl, rfl, rfl, ?_⟩
      show ((CategoriesArg.listA cats).histories c).length ≤ b
      simp [CategoriesArg.histories]
    · intro hov
      exact absurd hov (by simp [SiteMonitor.init])
  obtain ⟨g1, g2, g3⟩ := runReqs_baseline b choke c _ rs rfl rfl hinv0
  refine ⟨g1, ?_⟩
  intro hover
  rw [runReqs_append]
  obtain ⟨_, h2, h3, h4⟩ := runReqs_keeps_over c _ rs' hover
  exact ⟨h2, h3, h4⟩

/-- Witness for C2 at a concrete configuration and a one-report run. -/
theorem c2_witness :
    BaselineInv 1 2 "w"
      (runReqs (SiteMonitor.init (.listA ["w"]) 1 2 20 20 none 0 none true 25)
        [(.float 3, some "w")])
    ∧ ((runReqs (SiteMonitor.init (.listA ["w"]) 1 2 20 20 none 0 none true
          25) [(.float 3, some "w")]).burnin_over "w" = true →
        (runReqs (SiteMonitor.init (.listA ["w"]) 1 2 20 20 none 0 none true
            25) ([(.float 3, some "w")] ++ [])).baseline_avg "w"
          = (runReqs (SiteMonitor.init (.listA ["w"]) 1 2 20 20 none 0 none
              true 25) [(.float 3, some "w")]).baseline_avg "w"
        ∧ (runReqs (SiteMonitor.init (.listA ["w"]) 1 2 20 20 none 0 none
              true 25) ([(.float 3, some "w")] ++ [])).baseline_std "w"
          = (runReqs (SiteMonitor.init (.listA ["w"]) 1 2 20 20 none 0 none
              true 25) [(.float 3, some "w")]).baseline_std "w"
        ∧ (runReqs (SiteMonitor.init (.listA ["w"]) 1 2 20 20 none 0 none
              true 25) ([(.float 3, some "w")] ++ [])).baseline_max "w"
          = (runReqs (SiteMonitor.init (.listA ["w"]) 1 2 20 20 none 0 none
              true 25) [(.float 3, some "w")]).baseline_max "w") :=
  c2_baseline_lifecycle ["w"] 1 2 20 20 none 0 none true 25 "w"
    [(.float 3, some "w")] [] (by norm_num)

/-! ### Constant-stream runs: set-up -/

lemma runFloats_cons (m : SiteMonitor) (x : ℝ) (xs : List ℝ) :
    runFloats m (x :: xs) = runFloats (stepFloat m x) xs := rfl

lemma runFloats_append (m : SiteMonitor) (xs ys : List ℝ) :
    runFloats m (xs ++ ys) = runFloats (runFloats m xs) ys :=
  List.foldl_append ..

lemma runOk_append (m : SiteMonitor) (xs ys : List ℝ) :
    runOk m (xs ++ ys) ↔ runOk m xs ∧ runOk (runFloats m xs) ys := by
  induction xs generalizing m with
  | nil => simp [runOk, runFloats]
  | cons x xs ih =>
    rw [List.cons_append]
    show (_ ∧ runOk (stepFloat m x) (xs ++ ys)) ↔ _
    rw [ih (stepFloat m x)]
    rw [show runOk m (x :: xs) = ((∃ m' d,
      track_request m (.float x) none 0 = .ok m' d)
      ∧ runOk (stepFloat m x) xs) from rfl]
    rw [runFloats_cons]
    tauto

/-- The configuration of the single-category runs used for the
constant-stream theorems. -/
structure RunParams where
  b : ℕ
  ck : ℝ
  tv : ℕ
  ts : ℕ
  s : ℝ
  dbr : ℝ
  dmin : ℝ
  dmax : ℝ
  di : ℝ
  L : ℕ

/-- A single-category monitor built by `SiteMonitor.init` with `handle_timer
= False`, no jitter, and explicit delay-dict overrides. -/
def mkMon (p : RunParams) : SiteMonitor :=
  SiteMonitor.init .noneA p.b p.ck p.tv p.ts none p.s
    (some ⟨some p.dbr, some p.dmin, some p.dmax, some p.di, none⟩) false p.L

/-- The configuration fields of a state reached from `mkMon p` (assuming
the constructor clamp left `start_delay` at `p.s`). -/
structure CfgSt (p : RunParams) (m : SiteMonitor) : Prop where
  hdef : m.default = "main"
  hcats : m.cats = ["main"]
  hbi : m.burn_in = p.b
  hck : m.choke_point = p.ck
  htv : m.slow_down_thresh = p.tv
  hts : m.speed_up_thresh = p.ts
  hrand : m.rand = none
  hsd : m.start_delay = p.s
  hL : m.rolling_mean_length = p.L
  hdbr : m.delays.burnin = p.dbr
  hdmin : m.delays.min = p.dmin
  hdmax : m.delays.max = p.dmax
  hdi : m.delays.interval = p.di

/-- The state during the burn-in phase of a constant-`a` run. -/
structure BurnSt (p : RunParams) (j : ℕ) (a : ℝ) (m : SiteMonitor) :
    Prop where
  cfg : CfgSt p m
  resp : m.responses "main" = List.replicate j a
  over : m.burnin_over "main" = false
  bavg : m.baseline_avg "main" = none
  bstd : m.baseline_std "main" = none
  bmax : m.baseline_max "main" = none
  cur : m.delays.current = none
  nv : m.num_violations = 0
  ns : m.num_successes = 0

lemma cfg_mkMon (p : RunParams) (hmins : p.dmin ≤ p.s)
    (hsmax : p.s ≤ p.dmax) : CfgSt p (mkMon p) := by
  refine ⟨rfl, rfl, rfl, rfl, rfl, rfl, rfl, ?_, rfl, rfl, rfl, rfl, rfl⟩
  show min (max p.s p.dmin) p.dmax = p.s
  rw [max_eq_left hmins, min_eq_left hsmax]

lemma burnSt_mkMon (p : RunParams) (a : ℝ) (hmins : p.dmin ≤ p.s)
    (hsmax : p.s ≤ p.dmax) : BurnSt p 0 a (mkMon p) :=
  ⟨cfg_mkMon p hmins hsmax, rfl, rfl, rfl, rfl, rfl, rfl, rfl, rfl⟩

lemma burnSt_step (p : RunParams) (j : ℕ) (a : ℝ) (m : SiteMonitor)
    (hj : j < p.b) (h : BurnSt p j a m) :
    BurnSt p (j + 1) a (stepFloat m a)
    ∧ ∃ m' d, track_request m (.float a) none 0 = .ok m' d := by
  have hcat : (none : Option String).getD m.default ∈ m.cats := by
    rw [Option.getD_none, h.cfg.hdef, h.cfg.hcats]
    simp
  have hlen : (m.responses "main").length < m.burn_in := by
    rw [h.resp, h.cfg.hbi, List.length_replicate]
    exact hj
  have hstep := trackStep_eq_burnin m "main" a hlen
  have hcat' : (none : Option String).getD m.default = "main" := by
    rw [Option.getD_none, h.cfg.hdef]
  have htr := track_request_eq_ok_norand m (.float a) none 0
    hcat rfl (by rw [hcat']; exact hstep) h.cfg.hrand
  constructor
  · have hsf : stepFloat m a = trackerBump
        {m with responses :=
          Function.update m.responses "main" (m.responses "main" ++ [a])}
        (some m.delays.burnin) := by
      rw [stepFloat, htr]
      rfl
    rw [hsf]
    refine ⟨⟨h.cfg.hdef, h.cfg.hcats, h.cfg.hbi, h.cfg.hck, h.cfg.htv,
      h.cfg.hts, h.cfg.hrand, h.cfg.hsd, h.cfg.hL, h.cfg.hdbr,
      h.cfg.hdmin, h.cfg.hdmax, h.cfg.hdi⟩, ?_, h.over, h.bavg, h.bstd,
      h.bmax, h.cur, h.nv, h.ns⟩
    show Function.update m.responses "main" (m.responses "main" ++ [a])
      "main" = List.replicate (j + 1) a
    rw [Function.update_same, h.resp, ← List.replicate_succ' (j) a]
  · exact ⟨_, _, htr⟩

lemma burnSt_run (p : RunParams) (a : ℝ) (hmins : p.dmin ≤ p.s)
    (hsmax : p.s ≤ p.dmax) (j : ℕ) (hj : j ≤ p.b) :
    BurnSt p j a (runFloats (mkMon p) (List.replicate j a))
    ∧ runOk (mkMon p) (List.replicate j a) := by
  induction j with
  | zero => exact ⟨burnSt_mkMon p a hmins hsmax, trivial⟩
  | succ j ih =>
    obtain ⟨hb, hok⟩ := ih (by omega)
    have hstep := burnSt_step p j a _ (by omega) hb
    constructor
    · rw [List.replicate_succ' (j) a, runFloats_append]
      exact hstep.1
    · rw [List.replicate_succ' (j) a, runOk_append]
      refine ⟨hok, ?_⟩
      show (∃ m' d, _) ∧ True
      exact ⟨hstep.2, trivial⟩

/-- The state after `n ≥ 1` post-burn-in reports of a constant latency `v`
above the (degenerate) baseline ceiling `a`; `n = 0` describes the
intermediate state `endBurninUpdate` produces. -/
structure UpSt (p : RunParams) (a v : ℝ) (n : ℕ) (m : SiteMonitor) :
    Prop where
  cfg : CfgSt p m
  resp : m.responses "main" = List.replicate p.b a ++ List.replicate n v
  over : m.burnin_over "main" = true
  bavg : m.baseline_avg "main" = some a
  bstd : m.baseline_std "main" = some 0
  bmax : m.baseline_max "main" = some a
  cur : m.delays.current = some (min (p.s + (n / p.tv : ℕ) * p.di) p.dmax)
  nv : m.num_violations = n % p.tv
  ns : m.num_successes = 0

lemma cfgSt_bump {p : RunParams} {m : SiteMonitor}
    (h : CfgSt p m) (d : Option ℝ) : CfgSt p (trackerBump m d) :=
  ⟨h.hdef, h.hcats, h.hbi, h.hck, h.htv, h.hts, h.hrand, h.hsd, h.hL,
   h.hdbr, h.hdmin, h.hdmax, h.hdi⟩

lemma upSt_bump {p : RunParams} {a v : ℝ} {n : ℕ} {m : SiteMonitor}
    (h : UpSt p a v n m) (d : Option ℝ) : UpSt p a v n (trackerBump m d) :=
  ⟨cfgSt_bump h.cfg d, h.resp, h.over, h.bavg, h.bstd, h.bmax, h.cur, h.nv, h.ns⟩

lemma clamp_up_step {s di dmax : ℝ} (k : ℕ) (hdi : 0 ≤ di)
    (hs : s ≤ dmax) :
    (if dmax < min (s + (k : ℕ) * di) dmax + di then dmax
     else min (s + (k : ℕ) * di) dmax + di)
      = min (s + ((k + 1 : ℕ) : ℝ) * di) dmax := by
  push_cast
  have hk : (k : ℝ) * di ≤ ((k : ℝ) + 1) * di := by nlinarith
  by_cases hc : s + (k : ℝ) * di ≤ dmax
  · rw [min_eq_left hc]
    by_cases hd : dmax < s + (k : ℝ) * di + di
    · rw [if_pos hd, eq_comm, min_eq_right (by nlinarith)]
    · rw [if_neg hd, eq_comm, min_eq_left (by nlinarith)]
      ring
  · push_neg at hc
    rw [min_eq_right (le_of_lt hc)]
    by_cases hd : dmax < dmax + di
    · rw [if_pos hd, eq_comm, min_eq_right (by nlinarith)]
    · exfalso
      push_neg at hd
      nlinarith

lemma up_monitoring (p : RunParams) (a v : ℝ) (n : ℕ) (mu : SiteMonitor)
    (htv : 1 ≤ p.tv) (hav : a < v) (hdi : 0 ≤ p.di) (hsmax : p.s ≤ p.dmax)
    (h : UpSt p a v n mu) :
    ∃ m' d, monitoring_process mu "main" v = .ok m' d
      ∧ UpSt p a v (n + 1) m' := by
  have hist : mu.responses "main" ++ [v]
      = List.replicate p.b a ++ List.replicate (n + 1) v := by
    rw [h.resp, List.append_assoc, ← List.replicate_succ' n v]
  have hrm : a < mean (lastSlice mu.rolling_mean_length
      (mu.responses "main" ++ [v])) := by
    rw [hist, h.cfg.hL]
    exact lt_mean_lastSlice p.L p.b (n + 1) (Nat.succ_ne_zero n) hav
  have htv0 : 0 < p.tv := htv
  have hmod : n % p.tv < p.tv := Nat.mod_lt n htv0
  by_cases hc : n % p.tv + 1 = p.tv
  · obtain ⟨hm1, hd1⟩ := cycle_succ_eq htv0 hc
    have hnv : mu.slow_down_thresh ≤ mu.num_violations + 1 := by
      rw [h.cfg.htv, h.nv, hc]
    have hred := monitoring_eq_viol_trig mu "main" v h.bmax hrm hnv h.cur rfl
    refine ⟨_, _, hred, ⟨?_, ?_,
      h.over, h.bavg, h.bstd, h.bmax, ?_, ?_, rfl⟩⟩
    · exact ⟨h.cfg.hdef, h.cfg.hcats, h.cfg.hbi, h.cfg.hck, h.cfg.htv,
        h.cfg.hts, h.cfg.hrand, h.cfg.hsd, h.cfg.hL, h.cfg.hdbr,
        h.cfg.hdmin, h.cfg.hdmax, h.cfg.hdi⟩
    · show Function.update mu.responses "main" (mu.responses "main" ++ [v])
        "main" = _
      rw [Function.update_same, hist]
    · show some (if mu.delays.max
          < min (p.s + (n / p.tv : ℕ) * p.di) p.dmax + mu.delays.interval
        then mu.delays.max
        else min (p.s + (n / p.tv : ℕ) * p.di) p.dmax + mu.delays.interval)
        = some (min (p.s + ((n + 1) / p.tv : ℕ) * p.di) p.dmax)
      rw [h.cfg.hdmax, h.cfg.hdi, hd1]
      exact congrArg some (clamp_up_step (n / p.tv) hdi hsmax)
    · show 0 = (n + 1) % p.tv
      rw [hm1]
  · have hlt : n % p.tv + 1 < p.tv := by omega
    obtain ⟨hm1, hd1⟩ := cycle_succ_lt hlt
    have hnv : mu.num_violations + 1 < mu.slow_down_thresh := by
      rw [h.cfg.htv, h.nv]
      exact hlt
    have hred := monitoring_eq_viol_low mu "main" v h.bmax hrm hnv
    refine ⟨_, _, hred, ⟨?_, ?_, h.over, h.bavg, h.bstd, h.bmax, ?_, ?_,
      h.ns⟩⟩
    · exact ⟨h.cfg.hdef, h.cfg.hcats, h.cfg.hbi, h.cfg.hck, h.cfg.htv,
        h.cfg.hts, h.cfg.hrand, h.cfg.hsd, h.cfg.hL, h.cfg.hdbr,
        h.cfg.hdmin, h.cfg.hdmax, h.cfg.hdi⟩
    · show Function.update mu.responses "main" (mu.responses "main" ++ [v])
        "main" = _
      rw [Function.update_same, hist]
    · show mu.delays.current
        = some (min (p.s + ((n + 1) / p.tv : ℕ) * p.di) p.dmax)
      rw [hd1]
      exact h.cur
    · show mu.num_violations + 1 = (n + 1) % p.tv
      rw [h.nv, hm1]

lemma upSt_stepFloat (p : RunParams) (a v : ℝ) (n : ℕ) (m : SiteMonitor)
    (htv : 1 ≤ p.tv) (hav : a < v) (hdi : 0 ≤ p.di) (hsmax : p.s ≤ p.dmax)
    (h : UpSt p a v n m) :
    UpSt p a v (n + 1) (stepFloat m v)
    ∧ ∃ m' d, track_request m (.float v) none 0 = .ok m' d := by
  have hlen : ¬ (m.responses "main").length < m.burn_in := by
    rw [h.resp, h.cfg.hbi, List.length_append, List.length_replicate,
      List.length_replicate]
    omega
  have h2 : ¬ ((m.responses "main").length = m.burn_in
      ∧ m.burnin_over "main" = false) := by
    rintro ⟨_, hov⟩
    rw [h.over] at hov
    exact absurd hov (by simp)
  have hstep := trackStep_eq_monitoring m "main" v hlen h2
  obtain ⟨m', d, hok, hup⟩ := up_monitoring p a v n m htv hav hdi hsmax h
  have hcat' : (none : Option String).getD m.default = "main" := by
    rw [Option.getD_none, h.cfg.hdef]
  have hcat : (none : Option String).getD m.default ∈ m.cats := by
    rw [hcat', h.cfg.hcats]
    simp
  have htr := track_request_eq_ok_norand m (.float v) none 0 hcat rfl
    (by rw [hcat', hstep]; exact hok) h.cfg.hrand
  refine ⟨?_, _, _, htr⟩
  rw [show stepFloat m v = trackerBump m' d from by rw [stepFloat, htr]; rfl]
  exact upSt_bump hup d

lemma upSt_begin (p : RunParams) (a v : ℝ) (m : SiteMonitor)
    (hb1 : 1 ≤ p.b) (htv : 1 ≤ p.tv) (hav : a < v) (hdi : 0 ≤ p.di)
    (hsmax : p.s ≤ p.dmax) (h : BurnSt p p.b a m) :
    UpSt p a v 1 (stepFloat m v)
    ∧ ∃ m' d, track_request m (.float v) none 0 = .ok m' d := by
  have hl : (m.responses "main").length = m.burn_in := by
    rw [h.resp, h.cfg.hbi, List.length_replicate]
  have hstep := trackStep_eq_end_burnin m "main" v hl h.over
  have hmu : UpSt p a v 0 (endBurninUpdate m "main") := by
    refine ⟨⟨h.cfg.hdef, h.cfg.hcats, h.cfg.hbi, h.cfg.hck, h.cfg.htv,
      h.cfg.hts, h.cfg.hrand, h.cfg.hsd, h.cfg.hL, h.cfg.hdbr,
      h.cfg.hdmin, h.cfg.hdmax, h.cfg.hdi⟩, ?_, ?_, ?_, ?_, ?_, ?_, ?_,
      h.ns⟩
    · show m.responses "main" = _
      rw [h.resp]
      simp
    · show Function.update m.burnin_over "main" true "main" = true
      exact Function.update_same ..
    · show Function.update m.baseline_avg "main"
        (some (mean (m.responses "main"))) "main" = some a
      rw [Function.update_same, h.resp, mean_replicate (by omega) a]
    · show Function.update m.baseline_std "main"
        (some (std (m.responses "main"))) "main" = some 0
      rw [Function.update_same, h.resp, std_replicate (by omega) a]
    · show Function.update m.baseline_max "main"
        (some (mean (m.responses "main")
          + m.choke_point * std (m.responses "main"))) "main" = some a
      rw [Function.update_same, h.resp, mean_replicate (by omega) a,
        std_replicate (by omega) a, mul_zero, add_zero]
    · show some m.start_delay
        = some (min (p.s + ((0 / p.tv : ℕ) : ℝ) * p.di) p.dmax)
      rw [h.cfg.hsd, Nat.zero_div]
      norm_num [min_eq_left hsmax]
    · show m.num_violations = 0 % p.tv
      rw [h.nv, Nat.zero_mod]
  obtain ⟨m', d, hok, hup⟩ := up_monitoring p a v 0 _ htv hav hdi hsmax hmu
  have hcat' : (none : Option String).getD m.default = "main" := by
    rw [Option.getD_none, h.cfg.hdef]
  have hcat : (none : Option String).getD m.default ∈ m.cats := by
    rw [hcat', h.cfg.hcats]
    simp
  have hok2 : trackStep m "main" v = .ok m' d := by
    rw [hstep, end_burnin]
    exact hok
  have htr := track_request_eq_ok_norand m (.float v) none 0 hcat rfl
    (by rw [hcat']; exact hok2) h.cfg.hrand
  refine ⟨?_, _, _, htr⟩
  rw [show stepFloat m v = trackerBump m' d from by rw [stepFloat, htr]; rfl]
  exact upSt_bump hup d

lemma up_full (p : RunParams) (a v : ℝ) (hb1 : 1 ≤ p.b) (htv : 1 ≤ p.tv)
    (hmins : p.dmin ≤ p.s) (hsmax : p.s ≤ p.dmax) (hav : a < v)
    (hdi : 0 ≤ p.di) (n : ℕ) (hn : 1 ≤ n) :
    UpSt p a v n
      (runFloats (mkMon p) (List.replicate p.b a ++ List.replicate n v))
    ∧ runOk (mkMon p) (List.replicate p.b a ++ List.replicate n v) := by
  induction n with
  | zero => omega
  | succ k ih =>
    by_cases hk : k = 0
    · subst hk
      obtain ⟨hbs, hok⟩ := burnSt_run p a hmins hsmax p.b le_rfl
      obtain ⟨hu, hex⟩ := upSt_begin p a v _ hb1 htv hav hdi hsmax hbs
      constructor
      · rw [show List.replicate (0 + 1) v = [v] from rfl, runFloats_append]
        exact hu
      · rw [show List.replicate (0 + 1) v = [v] from rfl, runOk_append]
        exact ⟨hok, hex, trivial⟩
    · have hk1 : 1 ≤ k := by omega
      obtain ⟨hu, hok⟩ := ih hk1
      obtain ⟨hu', hex⟩ := upSt_stepFloat p a v k _ htv hav hdi hsmax hu
      constructor
      · rw [List.replicate_succ' k v, ← List.append_assoc, runFloats_append]
        exact hu'
      · rw [List.replicate_succ' k v, ← List.append_assoc, runOk_append]
        exact ⟨hok, hex, trivial⟩

/-! ### C3 and C6: constant stream above the ceiling -/

/-- C3 (amended): with an all-equal burn-in sample (so the ceiling equals
that constant and every mixed rolling window of a later constant `v >
ceiling` stays above it), after `n ≥ 1` post-burn-in reports of `v` the
current delay is exactly `min (start_delay + (n / slow_down_thresh) ·
step, max_delay)`: it rises by `step_size` once every
`slow_down_threshold` reports, monotonically, until `max_delay`, and stays
clamped there with every call still returning normally (the halt is a
clamp, not an error). -/
theorem c3_amended (b tv ts L : ℕ) (ck s dbr dmin dmax di a v : ℝ) (n : ℕ)
    (hb1 : 1 ≤ b) (htv : 1 ≤ tv) (hmins : dmin ≤ s) (hsmax : s ≤ dmax)
    (hav : a < v) (hdi : 0 ≤ di) (hn : 1 ≤ n) :
    (runFloats (mkMon ⟨b, ck, tv, ts, s, dbr, dmin, dmax, di, L⟩)
        (List.replicate b a ++ List.replicate n v)).delays.current
      = some (min (s + ((n / tv : ℕ) : ℝ) * di) dmax)
    ∧ (runFloats (mkMon ⟨b, ck, tv, ts, s, dbr, dmin, dmax, di, L⟩)
        (List.replicate b a ++ List.replicate n v)).baseline_max "main"
      = some a
    ∧ runOk (mkMon ⟨b, ck, tv, ts, s, dbr, dmin, dmax, di, L⟩)
        (List.replicate b a ++ List.replicate n v) := by
  obtain ⟨hu, hok⟩ := up_full ⟨b, ck, tv, ts, s, dbr, dmin, dmax, di, L⟩
    a v hb1 htv hmins hsmax hav hdi n hn
  exact ⟨hu.cur, hu.bmax, hok⟩

/-- Witness for C3 (amended) at a concrete configuration: after burn-in
`[1]` and three reports of `2`, the delay is `min (0 + 3·5, 30) = 15`. -/
theorem c3_witness :
    (runFloats (mkMon ⟨1, 2, 1, 1, 0, 10, 0, 30, 5, 25⟩)
        (List.replicate 1 1 ++ List.replicate 3 2)).delays.current
      = some (min (0 + ((3 / 1 : ℕ) : ℝ) * 5) 30)
    ∧ (runFloats (mkMon ⟨1, 2, 1, 1, 0, 10, 0, 30, 5, 25⟩)
        (List.replicate 1 1 ++ List.replicate 3 2)).baseline_max "main"
      = some 1
    ∧ runOk (mkMon ⟨1, 2, 1, 1, 0, 10, 0, 30, 5, 25⟩)
        (List.replicate 1 1 ++ List.replicate 3 2) :=
  c3_amended 1 1 1 25 2 0 10 0 30 5 1 2 3 (by norm_num) (by norm_num)
    (by norm_num) (by norm_num) (by norm_num) (by norm_num) (by norm_num)

/-- C3 counterexample: burn-in `[10, 0]` gives ceiling 5 (choke factor 0);
with `slow_down_thresh = 1` and rolling window 2, the first post-burn-in
report of the constant latency `6 > 5` leaves the delay at 0 instead of
raising it by `step_size` to 5, because the rolling mean `(0 + 6)/2 = 3`
mixes the burn-in sample 0 and stays below the ceiling. -/
theorem c3_counterexample :
    (runFloats (mkMon ⟨2, 0, 1, 20, 0, 10, 0, 30, 5, 2⟩)
        [10, 0, 6]).baseline_max "main" = some 5
    ∧ (5 : ℝ) < 6
    ∧ (mkMon ⟨2, 0, 1, 20, 0, 10, 0, 30, 5, 2⟩).slow_down_thresh = 1
    ∧ (mkMon ⟨2, 0, 1, 20, 0, 10, 0, 30, 5, 2⟩).start_delay = 0
    ∧ (runFloats (mkMon ⟨2, 0, 1, 20, 0, 10, 0, 30, 5, 2⟩)
        [10, 0, 6]).delays.current = some 0
    ∧ (0 : ℝ) ≠ 0 + 5 := by
  have hstd : std [(10 : ℝ), 0] = 5 := by
    rw [std]
    norm_num [mean]
    rw [show (25 : ℝ) = 5 ^ 2 by norm_num,
      Real.sqrt_sq (by norm_num : (0 : ℝ) ≤ 5)]
  norm_num [runFloats, stepFloat, resState, track_request, trackStep,
    burnin_process, end_burnin, endBurninUpdate, monitoring_process,
    monBase, mkMon, SiteMonitor.init, CategoriesArg.keys,
    CategoriesArg.histories, resolveDelays, coerceElapsed, mean, lastSlice,
    hstd, Function.update]

/-- C6: with `burn_in = 5`, `choke_point = 2`, both thresholds 2, step 5,
delays in `[0, 20]`, `start_delay = 0`: after burn-in `[1,1,1,1,1]` the
baselines are mean 1, stddev 0, ceiling 1; the first report of 5 leaves
the delay at 0, the second moves it to 5, and two further reports of 5
move it to 10 — with every call returning normally. -/
theorem c6_scenario :
    (runFloats (mkMon ⟨5, 2, 2, 2, 0, 10, 0, 20, 5, 25⟩)
        (List.replicate 5 1 ++ List.replicate 1 5)).delays.current = some 0
    ∧ (runFloats (mkMon ⟨5, 2, 2, 2, 0, 10, 0, 20, 5, 25⟩)
        (List.replicate 5 1 ++ List.replicate 2 5)).delays.current = some 5
    ∧ (runFloats (mkMon ⟨5, 2, 2, 2, 0, 10, 0, 20, 5, 25⟩)
        (List.replicate 5 1 ++ List.replicate 4 5)).delays.current = some 10
    ∧ (runFloats (mkMon ⟨5, 2, 2, 2, 0, 10, 0, 20, 5, 25⟩)
        (List.replicate 5 1 ++ List.replicate 1 5)).baseline_avg "main"
      = some 1
    ∧ (runFloats (mkMon ⟨5, 2, 2, 2, 0, 10, 0, 20, 5, 25⟩)
        (List.replicate 5 1 ++ List.replicate 1 5)).baseline_std "main"
      = some 0
    ∧ (runFloats (mkMon ⟨5, 2, 2, 2, 0, 10, 0, 20, 5, 25⟩)
        (List.replicate 5 1 ++ List.replicate 1 5)).baseline_max "main"
      = some 1
    ∧ runOk (mkMon ⟨5, 2, 2, 2, 0, 10, 0, 20, 5, 25⟩)
        (List.replicate 5 1 ++ List.replicate 4 5) := by
  have h1 := up_full ⟨5, 2, 2, 2, 0, 10, 0, 20, 5, 25⟩ 1 5 (by norm_num)
    (by norm_num) (by norm_num) (by norm_num) (by norm_num) (by norm_num)
    1 (by norm_num)
  have h2 := up_full ⟨5, 2, 2, 2, 0, 10, 0, 20, 5, 25⟩ 1 5 (by norm_num)
    (by norm_num) (by norm_num) (by norm_num) (by norm_num) (by norm_num)
    2 (by norm_num)
  have h4 := up_full ⟨5, 2, 2, 2, 0, 10, 0, 20, 5, 25⟩ 1 5 (by norm_num)
    (by norm_num) (by norm_num) (by norm_num) (by norm_num) (by norm_num)
    4 (by norm_num)
  refine ⟨?_, ?_, ?_, h1.1.bavg, h1.1.bstd, h1.1.bmax, h4.2⟩
  · rw [h1.1.cur]
    norm_num
  · rw [h2.1.cur]
    norm_num
  · rw [h4.1.cur]
    norm_num

/-! ### C7: constant stream below the ceiling at elevated delay -/

/-- The state after `n` post-burn-in reports of a constant latency `v`
below the (degenerate) baseline ceiling `a`, starting from the elevated
post-burn-in delay `start_delay`. -/
structure DownSt (p : RunParams) (a v : ℝ) (n : ℕ) (m : SiteMonitor) :
    Prop where
  cfg : CfgSt p m
  resp : m.responses "main" = List.replicate p.b a ++ List.replicate n v
  over : m.burnin_over "main" = true
  bavg : m.baseline_avg "main" = some a
  bstd : m.baseline_std "main" = some 0
  bmax : m.baseline_max "main" = some a
  cur : m.delays.current = some (max (p.s - (n / p.ts : ℕ) * p.di) p.dmin)
  nv : m.num_violations = 0
  ns : m.num_successes
    = if p.dmin < p.s - ((n / p.ts : ℕ) : ℝ) * p.di then n % p.ts else 0

lemma downSt_bump {p : RunParams} {a v : ℝ} {n : ℕ} {m : SiteMonitor}
    (h : DownSt p a v n m) (d : Option ℝ) :
    DownSt p a v n (trackerBump m d) :=
  ⟨cfgSt_bump h.cfg d, h.resp, h.over, h.bavg, h.bstd, h.bmax, h.cur, h.nv, h.ns⟩

lemma down_monitoring (p : RunParams) (a v : ℝ) (n : ℕ) (mu : SiteMonitor)
    (hts : 1 ≤ p.ts) (hva : v < a) (hdi : 0 ≤ p.di)
    (h : DownSt p a v n mu) :
    ∃ m' d, monitoring_process mu "main" v = .ok m' d
      ∧ DownSt p a v (n + 1) m' := by
  have hist : mu.responses "main" ++ [v]
      = List.replicate p.b a ++ List.replicate (n + 1) v := by
    rw [h.resp, List.append_assoc, ← List.replicate_succ' n v]
  have hrm : ¬ a < mean (lastSlice mu.rolling_mean_length
      (mu.responses "main" ++ [v])) := by
    rw [hist, h.cfg.hL]
    exact not_lt.mpr (le_of_lt
      (mean_lastSlice_lt p.L p.b (n + 1) (Nat.succ_ne_zero n) hva))
  have hts0 : 0 < p.ts := hts
  have hmod : n % p.ts < p.ts := Nat.mod_lt n hts0
  by_cases hact : p.dmin < p.s - ((n / p.ts : ℕ) : ℝ) * p.di
  · -- the delay is still above the floor: a success is counted
    have hcc : max (p.s - ((n / p.ts : ℕ) : ℝ) * p.di) p.dmin
        = p.s - ((n / p.ts : ℕ) : ℝ) * p.di :=
      max_eq_left (le_of_lt hact)
    have hmin : mu.delays.min
        < p.s - ((n / p.ts : ℕ) : ℝ) * p.di := by
      rw [h.cfg.hdmin]
      exact hact
    have hcur : mu.delays.current
        = some (p.s - ((n / p.ts : ℕ) : ℝ) * p.di) := by
      rw [h.cur, hcc]
    have hns : mu.num_successes = n % p.ts := by
      rw [h.ns, if_pos hact]
    by_cases hc : n % p.ts + 1 = p.ts
    · obtain ⟨hm1, hd1⟩ := cycle_succ_eq hts0 hc
      have htrig : mu.speed_up_thresh ≤ mu.num_successes + 1 := by
        rw [h.cfg.hts, hns, hc]
      have hred := monitoring_eq_succ_trig mu "main" v h.bmax hrm hcur
        hmin htrig
      refine ⟨_, _, hred, ⟨?_, ?_, h.over, h.bavg, h.bstd, h.bmax, ?_, rfl,
        ?_⟩⟩
      · exact ⟨h.cfg.hdef, h.cfg.hcats, h.cfg.hbi, h.cfg.hck, h.cfg.htv,
          h.cfg.hts, h.cfg.hrand, h.cfg.hsd, h.cfg.hL, h.cfg.hdbr,
          h.cfg.hdmin, h.cfg.hdmax, h.cfg.hdi⟩
      · show Function.update mu.responses "main"
          (mu.responses "main" ++ [v]) "main" = _
        rw [Function.update_same, hist]
      · show some (max (p.s - ((n / p.ts : ℕ) : ℝ) * p.di
            - mu.delays.interval) mu.delays.min)
          = some (max (p.s - (((n + 1) / p.ts : ℕ) : ℝ) * p.di) p.dmin)
        rw [h.cfg.hdi, h.cfg.hdmin, hd1]
        push_cast
        ring_nf
      · show 0 = if p.dmin
            < p.s - (((n + 1) / p.ts : ℕ) : ℝ) * p.di
          then (n + 1) % p.ts else 0
        rw [hm1]
        exact (ite_self 0).symm
    · have hlt : n % p.ts + 1 < p.ts := by omega
      obtain ⟨hm1, hd1⟩ := cycle_succ_lt hlt
      have hlow : mu.num_successes + 1 < mu.speed_up_thresh := by
        rw [h.cfg.hts, hns]
        exact hlt
      have hred := monitoring_eq_succ_low mu "main" v h.bmax hrm hcur
        hmin hlow
      refine ⟨_, _, hred, ⟨?_, ?_, h.over, h.bavg, h.bstd, h.bmax, ?_, h.nv,
        ?_⟩⟩
      · exact ⟨h.cfg.hdef, h.cfg.hcats, h.cfg.hbi, h.cfg.hck, h.cfg.htv,
          h.cfg.hts, h.cfg.hrand, h.cfg.hsd, h.cfg.hL, h.cfg.hdbr,
          h.cfg.hdmin, h.cfg.hdmax, h.cfg.hdi⟩
      · show Function.update mu.responses "main"
          (mu.responses "main" ++ [v]) "main" = _
        rw [Function.update_same, hist]
      · show mu.delays.current
          = some (max (p.s - (((n + 1) / p.ts : ℕ) : ℝ) * p.di) p.dmin)
        rw [hd1]
        exact h.cur
      · show mu.num_successes + 1 = if p.dmin
            < p.s - (((n + 1) / p.ts : ℕ) : ℝ) * p.di
          then (n + 1) % p.ts else 0
        rw [hd1, if_pos hact, hns, hm1]
  · -- the delay already sits at the floor: no success is counted
    have hfloor : p.s - ((n / p.ts : ℕ) : ℝ) * p.di ≤ p.dmin :=
      not_lt.mp hact
    have hcc : max (p.s - ((n / p.ts : ℕ) : ℝ) * p.di) p.dmin = p.dmin :=
      max_eq_right hfloor
    have hcur : mu.delays.current = some p.dmin := by
      rw [h.cur, hcc]
    have hnomin : ¬ mu.delays.min < p.dmin := by
      rw [h.cfg.hdmin]
      exact lt_irrefl _
    have hred := monitoring_eq_noop mu "main" v h.bmax hrm hcur hnomin
    have hfloor' : p.s - (((n + 1) / p.ts : ℕ) : ℝ) * p.di ≤ p.dmin := by
      have hk : (n / p.ts : ℕ) ≤ ((n + 1) / p.ts : ℕ) :=
        Nat.div_le_div_right (by omega)
      have hk' : ((n / p.ts : ℕ) : ℝ) * p.di
          ≤ (((n + 1) / p.ts : ℕ) : ℝ) * p.di := by
        have : ((n / p.ts : ℕ) : ℝ) ≤ (((n + 1) / p.ts : ℕ) : ℝ) := by
          exact_mod_cast hk
        nlinarith
      linarith
    refine ⟨_, _, hred, ⟨?_, ?_, h.over, h.bavg, h.bstd, h.bmax, ?_, h.nv,
      ?_⟩⟩
    · exact ⟨h.cfg.hdef, h.cfg.hcats, h.cfg.hbi, h.cfg.hck, h.cfg.htv,
        h.cfg.hts, h.cfg.hrand, h.cfg.hsd, h.cfg.hL, h.cfg.hdbr,
        h.cfg.hdmin, h.cfg.hdmax, h.cfg.hdi⟩
    · show Function.update mu.responses "main"
        (mu.responses "main" ++ [v]) "main" = _
      rw [Function.update_same, hist]
    · show mu.delays.current
        = some (max (p.s - (((n + 1) / p.ts : ℕ) : ℝ) * p.di) p.dmin)
      rw [hcur, max_eq_right hfloor']
    · show mu.num_successes = if p.dmin
          < p.s - (((n + 1) / p.ts : ℕ) : ℝ) * p.di
        then (n + 1) % p.ts else 0
      rw [h.ns, if_neg hact, if_neg (not_lt.mpr hfloor')]

lemma downSt_stepFloat (p : RunParams) (a v : ℝ) (n : ℕ) (m : SiteMonitor)
    (hts : 1 ≤ p.ts) (hva : v < a) (hdi : 0 ≤ p.di)
    (h : DownSt p a v n m) :
    DownSt p a v (n + 1) (stepFloat m v)
    ∧ ∃ m' d, track_request m (.float v) none 0 = .ok m' d := by
  have hlen : ¬ (m.responses "main").length < m.burn_in := by
    rw [h.resp, h.cfg.hbi, List.length_append, List.length_replicate,
      List.length_replicate]
    omega
  have h2 : ¬ ((m.responses "main").length = m.burn_in
      ∧ m.burnin_over "main" = false) := by
    rintro ⟨_, hov⟩
    rw [h.over] at hov
    exact absurd hov (by simp)
  have hstep := trackStep_eq_monitoring m "main" v hlen h2
  obtain ⟨m', d, hok, hdn⟩ := down_monitoring p a v n m hts hva hdi h
  have hcat' : (none : Option String).getD m.default = "main" := by
    rw [Option.getD_none, h.cfg.hdef]
  have hcat : (none : Option String).getD m.default ∈ m.cats := by
    rw [hcat', h.cfg.hcats]
    simp
  have htr := track_request_eq_ok_norand m (.float v) none 0 hcat rfl
    (by rw [hcat', hstep]; exact hok) h.cfg.hrand
  refine ⟨?_, _, _, htr⟩
  rw [show stepFloat m v = trackerBump m' d from by rw [stepFloat, htr]; rfl]
  exact downSt_bump hdn d

lemma downSt_begin (p : RunParams) (a v : ℝ) (m : SiteMonitor)
    (hb1 : 1 ≤ p.b) (hts : 1 ≤ p.ts) (hva : v < a) (hdi : 0 ≤ p.di)
    (hmins : p.dmin ≤ p.s) (h : BurnSt p p.b a m) :
    DownSt p a v 1 (stepFloat m v)
    ∧ ∃ m' d, track_request m (.float v) none 0 = .ok m' d := by
  have hl : (m.responses "main").length = m.burn_in := by
    rw [h.resp, h.cfg.hbi, List.length_replicate]
  have hstep := trackStep_eq_end_burnin m "main" v hl h.over
  have hmu : DownSt p a v 0 (endBurninUpdate m "main") := by
    refine ⟨⟨h.cfg.hdef, h.cfg.hcats, h.cfg.hbi, h.cfg.hck, h.cfg.htv,
      h.cfg.hts, h.cfg.hrand, h.cfg.hsd, h.cfg.hL, h.cfg.hdbr,
      h.cfg.hdmin, h.cfg.hdmax, h.cfg.hdi⟩, ?_, ?_, ?_, ?_, ?_, ?_, ?_,
      ?_⟩
    · show m.responses "main" = _
      rw [h.resp]
      simp
    · show Function.update m.burnin_over "main" true "main" = true
      exact Function.update_same ..
    · show Function.update m.baseline_avg "main"
        (some (mean (m.responses "main"))) "main" = some a
      rw [Function.update_same, h.resp, mean_replicate (by omega) a]
    · show Function.update m.baseline_std "main"
        (some (std (m.responses "main"))) "main" = some 0
      rw [Function.update_same, h.resp, std_replicate (by omega) a]
    · show Function.update m.baseline_max "main"
        (some (mean (m.responses "main")
          + m.choke_point * std (m.responses "main"))) "main" = some a
      rw [Function.update_same, h.resp, mean_replicate (by omega) a,
        std_replicate (by omega) a, mul_zero, add_zero]
    · show some m.start_delay
        = some (max (p.s - ((0 / p.ts : ℕ) : ℝ) * p.di) p.dmin)
      rw [h.cfg.hsd, Nat.zero_div]
      norm_num [max_eq_left hmins]
    · show m.num_violations = 0
      exact h.nv
    · show m.num_successes = if p.dmin
          < p.s - ((0 / p.ts : ℕ) : ℝ) * p.di then 0 % p.ts else 0
      rw [h.ns, Nat.zero_mod]
      exact (ite_self 0).symm
  obtain ⟨m', d, hok, hdn⟩ := down_monitoring p a v 0 _ hts hva hdi hmu
  have hcat' : (none : Option String).getD m.default = "main" := by
    rw [Option.getD_none, h.cfg.hdef]
  have hcat : (none : Option String).getD m.default ∈ m.cats := by
    rw [hcat', h.cfg.hcats]
    simp
  have hok2 : trackStep m "main" v = .ok m' d := by
    rw [hstep, end_burnin]
    exact hok
  have htr := track_request_eq_ok_norand m (.float v) none 0 hcat rfl
    (by rw [hcat']; exact hok2) h.cfg.hrand
  refine ⟨?_, _, _, htr⟩
  rw [show stepFloat m v = trackerBump m' d from by rw [stepFloat, htr]; rfl]
  exact downSt_bump hdn d

lemma down_full (p : RunParams) (a v : ℝ) (hb1 : 1 ≤ p.b) (hts : 1 ≤ p.ts)
    (hmins : p.dmin ≤ p.s) (hsmax : p.s ≤ p.dmax) (hva : v < a)
    (hdi : 0 ≤ p.di) (n : ℕ) (hn : 1 ≤ n) :
    DownSt p a v n
      (runFloats (mkMon p) (List.replicate p.b a ++ List.replicate n v))
    ∧ runOk (mkMon p) (List.replicate p.b a ++ List.replicate n v) := by
  induction n with
  | zero => omega
  | succ k ih =>
    by_cases hk : k = 0
    · subst hk
      obtain ⟨hbs, hok⟩ := burnSt_run p a hmins hsmax p.b le_rfl
      obtain ⟨hd, hex⟩ := downSt_begin p a v _ hb1 hts hva hdi hmins hbs
      constructor
      · rw [show List.replicate (0 + 1) v = [v] from rfl, runFloats_append]
        exact hd
      · rw [show List.replicate (0 + 1) v = [v] from rfl, runOk_append]
        exact ⟨hok, hex, trivial⟩
    · have hk1 : 1 ≤ k := by omega
      obtain ⟨hd, hok⟩ := ih hk1
      obtain ⟨hd', hex⟩ := downSt_stepFloat p a v k _ hts hva hdi hd
      constructor
      · rw [List.replicate_succ' k v, ← List.append_assoc, runFloats_append]
        exact hd'
      · rw [List.replicate_succ' k v, ← List.append_assoc, runOk_append]
        exact ⟨hok, hex, trivial⟩

/-- C7 (amended): with an all-equal burn-in sample (ceiling = that
constant) and an elevated post-burn-in starting delay
`start_delay ≥ min_delay`, after `n ≥ 1` post-burn-in reports of a
constant `v` strictly below the ceiling the current delay is exactly
`max (start_delay − (n / speed_up_thresh) · step, min_delay)`: it
decreases by `step_size` once every `speed_up_threshold` reports,
monotonically, until it reaches `min_delay`, where it stays clamped, with
every call returning normally. -/
theorem c7_amended (b tv ts L : ℕ) (ck s dbr dmin dmax di a v : ℝ) (n : ℕ)
    (hb1 : 1 ≤ b) (hts : 1 ≤ ts) (hmins : dmin ≤ s) (hsmax : s ≤ dmax)
    (hva : v < a) (hdi : 0 ≤ di) (hn : 1 ≤ n) :
    (runFloats (mkMon ⟨b, ck, tv, ts, s, dbr, dmin, dmax, di, L⟩)
        (List.replicate b a ++ List.replicate n v)).delays.current
      = some (max (s - ((n / ts : ℕ) : ℝ) * di) dmin)
    ∧ (runFloats (mkMon ⟨b, ck, tv, ts, s, dbr, dmin, dmax, di, L⟩)
        (List.replicate b a ++ List.replicate n v)).baseline_max "main"
      = some a
    ∧ runOk (mkMon ⟨b, ck, tv, ts, s, dbr, dmin, dmax, di, L⟩)
        (List.replicate b a ++ List.replicate n v) := by
  obtain ⟨hd, hok⟩ := down_full ⟨b, ck, tv, ts, s, dbr, dmin, dmax, di, L⟩
    a v hb1 hts hmins hsmax hva hdi n hn
  exact ⟨hd.cur, hd.bmax, hok⟩

/-- Witness for C7 (amended): burn-in `[4]`, start delay 10, threshold 1,
step 5: after two reports of `1 < 4` the delay is `max (10 − 2·5, 0) = 0`. -/
theorem c7_witness :
    (runFloats (mkMon ⟨1, 2, 1, 1, 10, 10, 0, 30, 5, 25⟩)
        (List.replicate 1 4 ++ List.replicate 2 1)).delays.current
      = some (max ((10 : ℝ) - ((2 / 1 : ℕ) : ℝ) * 5) 0)
    ∧ (runFloats (mkMon ⟨1, 2, 1, 1, 10, 10, 0, 30, 5, 25⟩)
        (List.replicate 1 4 ++ List.replicate 2 1)).baseline_max "main"
      = some 4
    ∧ runOk (mkMon ⟨1, 2, 1, 1, 10, 10, 0, 30, 5, 25⟩)
        (List.replicate 1 4 ++ List.replicate 2 1) :=
  c7_amended 1 1 1 25 2 10 10 0 30 5 4 1 2 (by norm_num) (by norm_num)
    (by norm_num) (by norm_num) (by norm_num) (by norm_num) (by norm_num)

/-- C7 counterexample: burn-in `[0, 10]` gives ceiling 5 (choke factor 0);
the delay starts elevated at 10 (`min_delay = 0`), `speed_up_thresh = 2`,
rolling window 3.  Both post-burn-in reports are the constant `4 < 5`, yet
after two of them the delay is still 10, not `10 − 5`: the second report's
rolling window `[10, 4, 4]` has mean 6 above the ceiling (mixing the
burn-in sample 10), so it counts as a violation, not a success. -/
theorem c7_counterexample :
    (runFloats (mkMon ⟨2, 0, 20, 2, 10, 10, 0, 30, 5, 3⟩)
        [0, 10, 4, 4]).baseline_max "main" = some 5
    ∧ (4 : ℝ) < 5
    ∧ (mkMon ⟨2, 0, 20, 2, 10, 10, 0, 30, 5, 3⟩).speed_up_thresh = 2
    ∧ (mkMon ⟨2, 0, 20, 2, 10, 10, 0, 30, 5, 3⟩).start_delay = 10
    ∧ (runFloats (mkMon ⟨2, 0, 20, 2, 10, 10, 0, 30, 5, 3⟩)
        [0, 10, 4, 4]).delays.current = some 10
    ∧ (10 : ℝ) ≠ 10 - 5 := by
  have hstd : std [(0 : ℝ), 10] = 5 := by
    rw [std]
    norm_num [mean]
    rw [show (25 : ℝ) = 5 ^ 2 by norm_num,
      Real.sqrt_sq (by norm_num : (0 : ℝ) ≤ 5)]
  norm_num [runFloats, stepFloat, resState, track_request, trackStep,
    burnin_process, end_burnin, endBurninUpdate, monitoring_process,
    monBase, mkMon, SiteMonitor.init, CategoriesArg.keys,
    CategoriesArg.histories, resolveDelays, coerceElapsed, mean, lastSlice,
    hstd, Function.update]

/-! ### C4: every burn-in completion resets the shared delay -/

/-- C4 (amended): every completion of burn-in — not only the first — sets
the shared controller's `current_delay` to `start_delay` (which was
clamped to `[min_delay, max_delay]` at construction): the assignment in
`_end_burnin` is unconditional, so a later category completing burn-in
overwrites the current delay with `start_delay` instead of leaving it
unchanged. -/
theorem c4_amended :
    (∀ (m : SiteMonitor) (cat : String),
      (endBurninUpdate m cat).delays.current = some m.start_delay)
    ∧ ∀ (categories : CategoriesArg) (b : ℕ) (ck : ℝ) (tv ts : ℕ)
        (r : Option ℝ) (sd : ℝ) (dA : Option DelaysArg) (ht : Bool)
        (L : ℕ),
      (SiteMonitor.init categories b ck tv ts r sd dA ht L).start_delay
        = min (max sd (resolveDelays dA).min) (resolveDelays dA).max :=
  ⟨fun _ _ => rfl, fun _ _ _ _ _ _ _ _ _ _ => rfl⟩

/-- A two-category monitor (burn-in 1, slow-down threshold 1) used for the
C4 counterexample. -/
def MC4 : SiteMonitor :=
  SiteMonitor.init (.listA ["a", "b"]) 1 2 1 20 none 0 none false 25

set_option maxHeartbeats 2000000 in
/-- C4 counterexample: after category `"a"` finishes burn-in and two
violations push the shared delay to 5, category `"b"` finishing burn-in
resets `current_delay` back to `start_delay = 0` — the later completion
does *not* leave the delay unchanged. -/
theorem c4_counterexample :
    (runReqs MC4 [(.float 1, some "a"), (.float 100, some "a"),
      (.float 1, some "b")]).delays.current = some 5
    ∧ (runReqs MC4 [(.float 1, some "a"), (.float 100, some "a"),
      (.float 1, some "b")]).burnin_over "a" = true
    ∧ (runReqs MC4 [(.float 1, some "a"), (.float 100, some "a"),
      (.float 1, some "b")]).burnin_over "b" = false
    ∧ (runReqs MC4 [(.float 1, some "a"), (.float 100, some "a"),
      (.float 1, some "b"), (.float 1, some "b")]).burnin_over "b" = true
    ∧ (runReqs MC4 [(.float 1, some "a"), (.float 100, some "a"),
      (.float 1, some "b"), (.float 1, some "b")]).delays.current = some 0
    ∧ some (0 : ℝ) ≠ some (5 : ℝ) := by
  have hstd : std [(1 : ℝ)] = 0 := by
    rw [std]
    norm_num [mean]
  have hba : ¬ (("b" : String) = "a") := by decide
  have hab : ¬ (("a" : String) = "b") := by decide
  norm_num [hba, hab, runReqs, stepReq, resState, track_request, trackStep,
    burnin_process, end_burnin, endBurninUpdate, monitoring_process,
    monBase, MC4, SiteMonitor.init, CategoriesArg.keys,
    CategoriesArg.histories, resolveDelays, coerceElapsed, mean, hstd,
    lastSlice, Function.update]
